import Mathlib

/-!
Verification development for the ZoKrates Groth16 adapter
(`zokrates_core/src/proof_system/bellman/groth16.rs`).

Text is modelled as `List Char` (the type `Str` below).  Rust panics
(`unwrap` / `expect`), which terminate the surrounding call, are modelled
by `Option`: a fatal abort is `none`, a normal return value `v` is `some v`.

External collaborators that are not part of the repository core (the
bellman pairing engine, the `zokrates_field` field types and the portable
point types of the `proof_system` module) are modelled from the spec; every
such definition carries a doc comment starting with `Modelled from the
spec:`.  Everything else is translated directly from the source file.
-/

set_option maxRecDepth 20000

abbrev Str := List Char

/-- Hex digit test used by the textual field-element grammar
(`0-9`, `a-f`, `A-F`). -/
def isHexDigitB (c : Char) : Bool :=
  (('0' ≤ c) && (c ≤ '9')) || (('a' ≤ c) && (c ≤ 'f')) || (('A' ≤ c) && (c ≤ 'F'))

/-- Characters that can appear in a hex coordinate string: hex digits plus
the `x`/`X` of a `0x` prefix. -/
def isSChar (c : Char) : Bool :=
  isHexDigitB c || (c = 'x') || (c = 'X')

/-- Numeric value of a hex digit. -/
def hexVal (c : Char) : Nat :=
  if ('0' ≤ c) && (c ≤ '9') then c.toNat - 48
  else if ('a' ≤ c) && (c ≤ 'f') then c.toNat - 87
  else c.toNat - 55

/-- Lower-case hex digit for a value `< 16`. -/
def hexDigitChar (n : Nat) : Char :=
  if n < 10 then Char.ofNat (48 + n) else Char.ofNat (87 + n)

/-- Big-endian value of a list of hex digits. -/
def parseHexDigits (s : Str) : Nat :=
  s.foldl (fun acc c => acc * 16 + hexVal c) 0

/-- Fixed-width big-endian hex rendering (`k` digits, value `< 16^k`). -/
def toHexFixed : Nat → Nat → Str
  | 0, _ => []
  | k + 1, v => toHexFixed k (v / 16) ++ [hexDigitChar (v % 16)]

/-- Prefix test, matching on the pattern first (so that an empty or
concrete pattern reduces even against a symbolic text). -/
def isPre : Str → Str → Bool
  | [], _ => true
  | a :: as, s =>
    match s with
    | [] => false
    | b :: bs => (a == b) && isPre as bs

/-- Core of the hex parser: requires a nonempty all-hex digit string with
value strictly below the modulus. -/
def from_hexCore (q : Nat) (s' : Str) : Option Nat :=
  if s' ≠ [] ∧ s'.all isHexDigitB then
    if parseHexDigits s' < q then some (parseHexDigits s') else none
  else none

/-- Modelled from the spec: `pairing::from_hex`, the hex-string parser of
the pairing engine's base-field type (§3: external representation is a hex
string, optionally prefixed `0x`; values `≥` the modulus are rejected, not
reduced).  Returns `none` on empty/non-hex input or out-of-range values. -/
def from_hex (q : Nat) (s : Str) : Option Nat :=
  from_hexCore q (if isPre ("0x".data) s then s.drop 2 else s)

/-- Modelled from the spec: `T::try_from_str(s, 16)` of `zokrates_field`,
the base-16 scalar parser used on public-input strings (§4.2: each string
is parsed as base-16, fatal if not a valid field element; §3: values `≥`
the modulus are rejected, not reduced). -/
def try_from_str (r : Nat) (s : Str) : Option Nat :=
  if s ≠ [] ∧ s.all isHexDigitB then
    let v := parseHexDigits s
    if v < r then some v else none
  else none

/-- Rust `str::trim_start_matches("0x")`: repeatedly removes the prefix
`0x` (standard-library semantics, used at `verify`'s public-input parse). -/
def trimStartMatches0x : Str → Str
  | '0' :: 'x' :: rest => trimStartMatches0x rest
  | s => s

/-- Quadratic-extension element of the backend (native limb order:
`c0` first, `c1` second). -/
structure Fq2 where
  c0 : Nat
  c1 : Nat
deriving DecidableEq

/-- Backend G1 point: affine base-field coordinate pair. -/
abbrev BellmanG1 := Nat × Nat

/-- Backend G2 point: affine pair of quadratic-extension coordinates. -/
abbrev BellmanG2 := Fq2 × Fq2

/-- Backend verifying key (`bellman::groth16::VerifyingKey`): the fields
populated by `VerificationKey::into_bellman`. -/
structure BellmanVerifyingKey where
  alpha_g1 : BellmanG1
  beta_g1 : BellmanG1
  beta_g2 : BellmanG2
  gamma_g2 : BellmanG2
  delta_g1 : BellmanG1
  delta_g2 : BellmanG2
  ic : List BellmanG1

/-- Backend proof (`bellman::groth16::Proof`). -/
structure BellmanProof where
  a : BellmanG1
  b : BellmanG2
  c : BellmanG1

/-- Modelled from the spec: the abstract field/curve backend
(`T: Field` together with `T::BellmanEngine`, external collaborators whose
internal algorithms are out of scope per §1).  `q` is the base-field
modulus used for coordinate parsing, `r` the scalar-field modulus used for
public-input parsing, `onCurveG1`/`onCurveG2` the curve-membership checks
performed by `from_xy_checked`, and `pairingCheck` the engine's batch
pairing check that decides `verify_proof`. -/
structure Engine where
  q : Nat
  r : Nat
  onCurveG1 : Nat → Nat → Bool
  onCurveG2 : Fq2 → Fq2 → Bool
  pairingCheck : BellmanVerifyingKey → BellmanProof → List Nat → Bool

/-- Modelled from the spec: portable G1 point — a pair of base-field
coordinates as hex strings (§3). -/
abbrev G1Affine := Str × Str

/-- Modelled from the spec: portable G2 point — a pair of
quadratic-extension coordinates, each itself a pair of base-field hex
limbs `(c0, c1)` (§3). -/
abbrev G2Affine := (Str × Str) × (Str × Str)

/-- Modelled from the spec: `T::new_fq2(c0, c1)` of `zokrates_field`,
building a backend extension-field element from two base-field hex limbs
in the backend's native order (first argument becomes `c0`). -/
def new_fq2 (E : Engine) (a b : Str) : Option Fq2 :=
  (from_hex E.q a).bind fun x =>
    (from_hex E.q b).bind fun y => some ⟨x, y⟩

namespace serialization

/-- `serialization::to_g1` (groth16.rs:262-268): parses the two hex
coordinates with `from_hex` and validates curve membership with
`from_xy_checked`; each `unwrap` is a fatal abort (`none`). -/
def to_g1 (E : Engine) (g1 : G1Affine) : Option BellmanG1 :=
  (from_hex E.q g1.1).bind fun x =>
    (from_hex E.q g1.2).bind fun y =>
      if E.onCurveG1 x y then some (x, y) else none

/-- `serialization::to_g2` (groth16.rs:269-274): builds each
extension-field coordinate with the limb order reversed — the portable
second limb is passed as the backend's first (`c0`) limb — then validates
curve membership. -/
def to_g2 (E : Engine) (g2 : G2Affine) : Option BellmanG2 :=
  (new_fq2 E ((g2.1).2) ((g2.1).1)).bind fun x =>
    (new_fq2 E ((g2.2).2) ((g2.2).1)).bind fun y =>
      if E.onCurveG2 x y then some (x, y) else none

end serialization

/-- Modelled from the spec: `parse_g1` of the `proof_system::bellman`
module (outside the core file) — renders a backend G1 point with canonical
hex-string coordinates (`from_g1`/`from_g2` "always succeed given a valid
backend point; produce canonical hex-string coordinates", §4.1).
Canonical form is `0x` followed by 64 lower-case hex digits. -/
def parse_g1 (p : BellmanG1) : G1Affine :=
  (('0' :: 'x' :: toHexFixed 64 p.1), ('0' :: 'x' :: toHexFixed 64 p.2))

/-- Modelled from the spec: `parse_g2` of the `proof_system::bellman`
module — renders a backend G2 point with canonical hex-string limbs,
applying the documented limb-order swap (§3: the conversion "must swap
`(c0, c1)` to `(c1, c0)` when crossing the boundary in either
direction"): the portable first limb is the backend `c1`. -/
def parse_g2 (p : BellmanG2) : G2Affine :=
  ((('0' :: 'x' :: toHexFixed 64 p.1.c1), ('0' :: 'x' :: toHexFixed 64 p.1.c0)),
   (('0' :: 'x' :: toHexFixed 64 p.2.c1), ('0' :: 'x' :: toHexFixed 64 p.2.c0)))

/-- Modelled from the spec: `G1Affine::one()` of the pairing engine, the
fixed G1 generator inserted for the `beta_g1`/`delta_g1` fields that are
"not used during verification" (groth16.rs:60,63). -/
def g1One : BellmanG1 := (1, 2)

/-- `ProofPoints` (groth16.rs:22-27). -/
structure ProofPoints where
  a : G1Affine
  b : G2Affine
  c : G1Affine

/-- Modelled from the spec: the proof envelope `Proof<ProofPoints>` of the
`proof_system` module — points + ordered public-input strings + raw
hex-serialized proof bytes (§3). -/
structure Proof where
  proof : ProofPoints
  inputs : List Str
  raw : Str

/-- `VerificationKey` (groth16.rs:47-54). -/
structure VerificationKey where
  alpha : G1Affine
  beta : G2Affine
  gamma : G2Affine
  delta : G2Affine
  gamma_abc : List G1Affine

/-- All-or-nothing traversal of a list under a fallible function (the
`Vec::into_iter().map(..).collect()` of `into_bellman`, where any `unwrap`
inside the closure aborts the call). -/
def mapOptionAll (f : α → Option β) : List α → Option (List β)
  | [] => some []
  | a :: as =>
    match f a with
    | none => none
    | some b =>
      match mapOptionAll f as with
      | none => none
      | some bs => some (b :: bs)

/-- `ProofPoints::into_bellman` (groth16.rs:30-36). -/
def ProofPoints.into_bellman (E : Engine) (p : ProofPoints) : Option BellmanProof :=
  (serialization.to_g1 E p.a).bind fun a =>
    (serialization.to_g2 E p.b).bind fun b =>
      (serialization.to_g1 E p.c).bind fun c => some ⟨a, b, c⟩

/-- `ProofPoints::from_bellman` (groth16.rs:38-44). -/
def ProofPoints.from_bellman (p : BellmanProof) : ProofPoints :=
  ⟨parse_g1 p.a, parse_g2 p.b, parse_g1 p.c⟩

/-- `VerificationKey::into_bellman` (groth16.rs:57-71): converts the five
portable fields, filling `beta_g1`/`delta_g1` with the unused generator. -/
def VerificationKey.into_bellman (E : Engine) (vk : VerificationKey) :
    Option BellmanVerifyingKey :=
  (serialization.to_g1 E vk.alpha).bind fun alpha =>
    (serialization.to_g2 E vk.beta).bind fun beta =>
      (serialization.to_g2 E vk.gamma).bind fun gamma =>
        (serialization.to_g2 E vk.delta).bind fun delta =>
          (mapOptionAll (serialization.to_g1 E) vk.gamma_abc).bind fun ic =>
            some ⟨alpha, g1One, beta, gamma, g1One, delta, ic⟩

/-- Modelled from the spec: `bellman::groth16::prepare_verifying_key` — a
deterministic, pairing-optimized form of the key (§4.2 "derives a
pairing-optimized ('prepared') form of the key").  The prepared key keeps
the `ic` vector; the precomputed pairing data is abstracted into
`Engine.pairingCheck`, so the prepared key is represented by the key
itself. -/
def prepare_verifying_key (vk : BellmanVerifyingKey) : BellmanVerifyingKey := vk

/-- Modelled from the spec: `bellman::groth16::verify_proof` — rejects a
proof whose public-input count does not satisfy
`inputs.len() + 1 == ic.len()` (§8 "envelopes violating it must be
rejected", §7 fatal under the current design since the caller `unwrap`s
the error), otherwise delegates to the engine's batch pairing check
(§4.2). -/
def verify_proof (E : Engine) (pvk : BellmanVerifyingKey) (proof : BellmanProof)
    (inputs : List Nat) : Option Bool :=
  if inputs.length + 1 = pvk.ic.length then some (E.pairingCheck pvk proof inputs)
  else none

/-- The per-string public-input parse of `verify` (groth16.rs:247-249):
`T::try_from_str(s.trim_start_matches("0x"), 16).expect(..)`. -/
def parsePublicInput (E : Engine) (s : Str) : Option Nat :=
  try_from_str E.r (trimStartMatches0x s)

namespace G16

/-- `G16::verify` (groth16.rs:236-254): key conversion, key preparation,
proof conversion, public-input parsing, then the engine's pairing check;
every `expect`/`unwrap` on the way is a fatal abort (`none`). -/
def verify (E : Engine) (vk : VerificationKey) (proof : Proof) : Option Bool :=
  (vk.into_bellman E).bind fun bvk =>
    let pvk := prepare_verifying_key bvk
    (proof.proof.into_bellman E).bind fun bproof =>
      (mapOptionAll (parsePublicInput E) proof.inputs).bind fun ins =>
        verify_proof E pvk bproof ins

end G16

/-- Modelled from the spec: the `SolidityAbi` selector of the
`proof_system` module — closed enumeration `{V1, V2}` selecting the
verifier-contract dialect (§3). -/
inductive SolidityAbi
  | V1
  | V2

/-- Modelled from the spec: `SOLIDITY_G2_ADDITION_LIB` of
`proof_system::solidity` (not part of the core file) — the spec describes
it only as the "fixed second-group-arithmetic library text" placed first
in the assembled output (§4.3 step 8). -/
def SOLIDITY_G2_ADDITION_LIB : Str :=
  ("// fixed second-group-arithmetic library text (BN256G2)\n").data

/-- Modelled from the spec: `SOLIDITY_PAIRING_LIB` of
`proof_system::solidity` — the pairing-library text selected for the V1
dialect (§4.3 step 1). -/
def SOLIDITY_PAIRING_LIB : Str :=
  ("// pairing library text, V1 dialect\n").data

/-- Modelled from the spec: `SOLIDITY_PAIRING_LIB_V2` of
`proof_system::solidity` — the pairing-library text selected for the V2
dialect (§4.3 step 1). -/
def SOLIDITY_PAIRING_LIB_V2 : Str :=
  ("// pairing library text, V2 dialect\n").data

/-- Modelled from the spec: the `Display` rendering (`to_string()`) of a
portable G1 point — the "textual encodings" of its two coordinates
(§4.3 step 2), comma-separated as a point-constructor argument list. -/
def G1Affine.toText (g : G1Affine) : Str :=
  g.1 ++ (", ".data) ++ g.2

/-- Modelled from the spec: the `Display` rendering (`to_string()`) of a
portable G2 point — the textual encodings of its four limbs as a pair of
bracketed limb pairs. -/
def G2Affine.toText (g : G2Affine) : Str :=
  ("[".data) ++ (g.1).1 ++ (", ".data) ++ (g.1).2 ++ ("], [".data) ++
    (g.2).1 ++ (", ".data) ++ (g.2).2 ++ ("]".data)

/-- Length of the maximal leading run of characters satisfying `p`. -/
def countWhile (p : Char → Bool) : Str → Nat
  | [] => 0
  | c :: cs => if p c then countWhile p cs + 1 else 0

/-- The generic verification-key placeholder regex `(<%vk_[^i%]*%>)`
(groth16.rs:145): length of the match at the head of `s`, if any.  The
character class can consume neither `i` nor `%`, so the only candidate is
the maximal run, which must then be followed by `%>`. -/
def vkMatchLen (s : Str) : Option Nat :=
  if isPre ("<%vk_".data) s then
    let rest := s.drop 5
    let k := countWhile (fun c => !(c == 'i') && !(c == '%')) rest
    if isPre ("%>".data) (rest.drop k) then some (5 + k + 2) else none
  else none

/-- `Regex::replace` for the generic verification-key placeholder regex:
replaces the leftmost match (if any) with `repl`. -/
def replaceVk (repl : Str) : Str → Str
  | [] => []
  | c :: cs =>
    match vkMatchLen (c :: cs) with
    | some n => repl ++ (c :: cs).drop n
    | none => c :: replaceVk repl cs

/-- `Regex::replace` for a literal placeholder pattern: replaces the
leftmost occurrence of `pat` (if any) with `repl`. -/
def replaceFirstLit (pat repl : Str) : Str → Str
  | [] => if isPre pat ([] : Str) then repl else []
  | c :: cs =>
    if isPre pat (c :: cs) then repl ++ (c :: cs).drop pat.length
    else c :: replaceFirstLit pat repl cs

/-- Head test for the final-pass regex `0[xX][0-9a-fA-F]{64}`
(groth16.rs:227): true when a 66-character literal (`0x`/`0X` followed by
exactly 64 hex digits) starts at the head of `s`. -/
def lit64 : Str → Bool
  | c :: x :: rest =>
    (c == '0') && ((x == 'x') || (x == 'X')) && ((rest.take 64).length == 64)
      && (rest.take 64).all isHexDigitB
  | _ => false

/-- The final pass `re.replace_all(&template_text, "uint256($v)")`
(groth16.rs:227-228): every leftmost, non-overlapping 66-character hex
literal `lit` is rewritten to `uint256(lit)`. -/
def replaceAll64 : Str → Str
  | [] => []
  | c :: cs =>
    if lit64 (c :: cs) then
      ("uint256(".data) ++ (c :: cs).take 66 ++ (")".data) ++
        replaceAll64 ((c :: cs).drop 66)
    else c :: replaceAll64 cs
termination_by s => s.length
decreasing_by
  all_goals simp [List.length_drop]
  omega

/-- Decimal rendering of a count (`format!("{}", n)`). -/
def natText (n : Nat) : Str := (Nat.repr n).data

/-- One generated assignment statement of the `gamma_abc` block
(groth16.rs:210-217):
`vk.gamma_abc[i] = Pairing.G1Point(<entry text>);`. -/
def gammaAbcStmt (i : Nat) (g1 : G1Affine) : Str :=
  ("vk.gamma_abc[".data) ++ natText i ++ ("] = Pairing.G1Point(".data) ++
    G1Affine.toText g1 ++ (");".data)

/-- The accumulation loop building `gamma_abc_repeat_text`
(groth16.rs:208-221): the statement for entry `i`, then the separator
`"\n        "` exactly when `i < count - 1`. -/
def gammaAbcRepeatTextAux (count : Nat) : Nat → List G1Affine → Str
  | _, [] => []
  | i, g :: gs =>
    gammaAbcStmt i g ++ (if i < count - 1 then ("\n        ".data) else []) ++
      gammaAbcRepeatTextAux count (i + 1) gs

/-- `gamma_abc_repeat_text` for a full key (`count` is the length of
`gamma_abc`, the loop starts at index 0). -/
def gammaAbcRepeatText (l : List G1Affine) : Str :=
  gammaAbcRepeatTextAux l.length 0 l

/-- Literal pattern `<%vk_gamma_abc_length%>` (groth16.rs:146). -/
def vkGammaAbcLenPat : Str := ("<%vk_gamma_abc_length%>").data

/-- Literal pattern `<%vk_gamma_abc_pts%>` (groth16.rs:147). -/
def vkGammaAbcPtsPat : Str := ("<%vk_gamma_abc_pts%>").data

/-- Literal pattern `<%vk_input_length%>` (groth16.rs:148). -/
def vkInputLenPat : Str := ("<%vk_input_length%>").data

/-- Literal pattern `<%input_loop%>` (groth16.rs:149). -/
def inputLoopPat : Str := ("<%input_loop%>").data

/-- Literal pattern `<%input_argument%>` (groth16.rs:150). -/
def inputArgumentPat : Str := ("<%input_argument%>").data

/-- The input-copy loop spliced in when the key has public inputs
(groth16.rs:185-191). -/
def inputLoopText : Str :=
  ("
        for(uint i = 0; i < input.length; i++)\x7b
            inputValues[i] = input[i];
        \x7d").data

/-- The extra entry-point parameter spliced in when the key has public
inputs (groth16.rs:199-201): `, uint[n] memory input`. -/
def inputArgumentText (n : Nat) : Str :=
  (", uint[".data) ++ natText n ++ ("] memory input".data)

/-- The literal text of the first generic placeholder, `<%vk_alpha%>`. -/
def vkAlphaPat : Str := ("<%vk_alpha%>").data

/-- The literal text of the second generic placeholder, `<%vk_beta%>`. -/
def vkBetaPat : Str := ("<%vk_beta%>").data

/-- The literal text of the third generic placeholder, `<%vk_gamma%>`. -/
def vkGammaPat : Str := ("<%vk_gamma%>").data

/-- The literal text of the fourth generic placeholder, `<%vk_delta%>`. -/
def vkDeltaPat : Str := ("<%vk_delta%>").data

/-- Verbatim CONTRACT_TEMPLATE segment `tV1s1` (see the template definition below). -/
def tV1s1 : Str :=
  ("\ncontract Verifier \x7b\n    using Pairing for *;\n    struct VerifyingKey \x7b\n        Pairing.G1Point alpha;\n        Pairing.G2Point beta;\n        Pairing.G2Point gamma;\n        Pairing.G2Point delta;\n        Pairing.G1Point[] gamma_abc;\n    \x7d\n    struct Proof \x7b\n        Pairing.G1Point a;\n        Pairing.G2Point b;\n        Pairing.G1Point c;\n    \x7d\n    function verifyingKey() pure internal returns (VerifyingKey memory vk) \x7b\n        vk.alpha = Pairing.G1Point(").data

/-- Verbatim CONTRACT_TEMPLATE segment `tV1s2` (see the template definition below). -/
def tV1s2 : Str :=
  (");\n        vk.beta = Pairing.G2Point(").data

/-- Verbatim CONTRACT_TEMPLATE segment `tV1s3` (see the template definition below). -/
def tV1s3 : Str :=
  (");\n        vk.gamma = Pairing.G2Point(").data

/-- Verbatim CONTRACT_TEMPLATE segment `tV1s4` (see the template definition below). -/
def tV1s4 : Str :=
  (");\n        vk.delta = Pairing.G2Point(").data

/-- Verbatim CONTRACT_TEMPLATE segment `tV1lenA` (see the template definition below). -/
def tV1lenA : Str :=
  (");\n        vk.gamma_abc = new Pairing.G1Point[](").data

/-- Verbatim CONTRACT_TEMPLATE segment `tV1ptsA` (see the template definition below). -/
def tV1ptsA : Str :=
  (");\n        ").data

/-- Verbatim CONTRACT_TEMPLATE segment `tV1argA` (see the template definition below). -/
def tV1argA : Str :=
  ("\n    \x7d\n    function verify(uint[] memory input, Proof memory proof) internal view returns (uint) \x7b\n        uint256 snark_scalar_field = 21888242871839275222246405745257275088548364400416034343698204186575808495617;\n        VerifyingKey memory vk = verifyingKey();\n        require(input.length + 1 == vk.gamma_abc.length);\n        // Compute the linear combination vk_x\n        Pairing.G1Point memory vk_x = Pairing.G1Point(0, 0);\n        for (uint i = 0; i < input.length; i++) \x7b\n            require(input[i] < snark_scalar_field);\n            vk_x = Pairing.addition(vk_x, Pairing.scalar_mul(vk.gamma_abc[i + 1], input[i]));\n        \x7d\n        vk_x = Pairing.addition(vk_x, vk.gamma_abc[0]);\n        if(!Pairing.pairingProd4(\n             proof.a, proof.b,\n             Pairing.negate(vk_x), vk.gamma,\n             Pairing.negate(proof.c), vk.delta,\n             Pairing.negate(vk.alpha), vk.beta)) return 1;\n        return 0;\n    \x7d\n    function verifyTx(\n            uint[2] memory a,\n            uint[2][2] memory b,\n            uint[2] memory c").data

/-- Verbatim CONTRACT_TEMPLATE segment `tV1ilA` (see the template definition below). -/
def tV1ilA : Str :=
  ("\n        ) public view returns (bool r) \x7b\n        Proof memory proof;\n        proof.a = Pairing.G1Point(a[0], a[1]);\n        proof.b = Pairing.G2Point([b[0][0], b[0][1]], [b[1][0], b[1][1]]);\n        proof.c = Pairing.G1Point(c[0], c[1]);\n        uint[] memory inputValues = new uint[](").data

/-- Verbatim CONTRACT_TEMPLATE segment `tV1loopA` (see the template definition below). -/
def tV1loopA : Str :=
  (");\n        ").data

/-- Verbatim CONTRACT_TEMPLATE segment `tV1loopB` (see the template definition below). -/
def tV1loopB : Str :=
  ("\n        if (verify(inputValues, proof) == 0) \x7b\n            return true;\n        \x7d else \x7b\n            return false;\n        \x7d\n    \x7d\n\x7d\n").data

/-- Verbatim CONTRACT_TEMPLATE_V2 segment `tV2s1` (see the template definition below). -/
def tV2s1 : Str :=
  ("\ncontract Verifier \x7b\n    using Pairing for *;\n    struct VerifyingKey \x7b\n        Pairing.G1Point alpha;\n        Pairing.G2Point beta;\n        Pairing.G2Point gamma;\n        Pairing.G2Point delta;\n        Pairing.G1Point[] gamma_abc;\n    \x7d\n    struct Proof \x7b\n        Pairing.G1Point a;\n        Pairing.G2Point b;\n        Pairing.G1Point c;\n    \x7d\n    function verifyingKey() pure internal returns (VerifyingKey memory vk) \x7b\n        vk.alpha = Pairing.G1Point(").data

/-- Verbatim CONTRACT_TEMPLATE_V2 segment `tV2s2` (see the template definition below). -/
def tV2s2 : Str :=
  (");\n        vk.beta = Pairing.G2Point(").data

/-- Verbatim CONTRACT_TEMPLATE_V2 segment `tV2s3` (see the template definition below). -/
def tV2s3 : Str :=
  (");\n        vk.gamma = Pairing.G2Point(").data

/-- Verbatim CONTRACT_TEMPLATE_V2 segment `tV2s4` (see the template definition below). -/
def tV2s4 : Str :=
  (");\n        vk.delta = Pairing.G2Point(").data

/-- Verbatim CONTRACT_TEMPLATE_V2 segment `tV2lenA` (see the template definition below). -/
def tV2lenA : Str :=
  (");\n        vk.gamma_abc = new Pairing.G1Point[](").data

/-- Verbatim CONTRACT_TEMPLATE_V2 segment `tV2ptsA` (see the template definition below). -/
def tV2ptsA : Str :=
  (");\n        ").data

/-- Verbatim CONTRACT_TEMPLATE_V2 segment `tV2argA` (see the template definition below). -/
def tV2argA : Str :=
  ("\n    \x7d\n    function verify(uint[] memory input, Proof memory proof) internal view returns (uint) \x7b\n        uint256 snark_scalar_field = 21888242871839275222246405745257275088548364400416034343698204186575808495617;\n        VerifyingKey memory vk = verifyingKey();\n        require(input.length + 1 == vk.gamma_abc.length);\n        // Compute the linear combination vk_x\n        Pairing.G1Point memory vk_x = Pairing.G1Point(0, 0);\n        for (uint i = 0; i < input.length; i++) \x7b\n            require(input[i] < snark_scalar_field);\n            vk_x = Pairing.addition(vk_x, Pairing.scalar_mul(vk.gamma_abc[i + 1], input[i]));\n        \x7d\n        vk_x = Pairing.addition(vk_x, vk.gamma_abc[0]);\n        if(!Pairing.pairingProd4(\n             proof.a, proof.b,\n             Pairing.negate(vk_x), vk.gamma,\n             Pairing.negate(proof.c), vk.delta,\n             Pairing.negate(vk.alpha), vk.beta)) return 1;\n        return 0;\n    \x7d\n    function verifyTx(\n            Proof memory proof").data

/-- Verbatim CONTRACT_TEMPLATE_V2 segment `tV2loopA` (see the template definition below). -/
def tV2loopA : Str :=
  ("\n        ) public view returns (bool r) \x7b\n        uint[] memory inputValues = new uint[](input.length);\n        ").data

/-- Verbatim CONTRACT_TEMPLATE_V2 segment `tV2loopB` (see the template definition below). -/
def tV2loopB : Str :=
  ("\n        if (verify(inputValues, proof) == 0) \x7b\n            return true;\n        \x7d else \x7b\n            return false;\n        \x7d\n    \x7d\n\x7d\n").data

/-- Tail of `CONTRACT_TEMPLATE` after `<%vk_delta%>`: the remaining
placeholders interleaved with the verbatim segments, in source order. -/
def tV1s5 : Str :=
  tV1lenA ++ (vkGammaAbcLenPat ++ (tV1ptsA ++ (vkGammaAbcPtsPat ++ (tV1argA ++
    (inputArgumentPat ++ (tV1ilA ++ (vkInputLenPat ++ (tV1loopA ++ (inputLoopPat ++
      tV1loopB)))))))))

/-- Tail of `CONTRACT_TEMPLATE_V2` after `<%vk_delta%>` (the V2 template has
no `<%vk_input_length%>` placeholder). -/
def tV2s5 : Str :=
  tV2lenA ++ (vkGammaAbcLenPat ++ (tV2ptsA ++ (vkGammaAbcPtsPat ++ (tV2argA ++
    (inputArgumentPat ++ (tV2loopA ++ (inputLoopPat ++ tV2loopB)))))))

/-- `CONTRACT_TEMPLATE` (groth16.rs:332-391), the V1-dialect template body.
The text is represented as the concatenation of its verbatim segments and
placeholder literals, in source order (braces written `\x7b`/`\x7d`,
newlines `\n`; concatenating the pieces in the order given reproduces the
raw string of the source, including its leading and trailing newline).
The split keeps every piece small enough to compute with. -/
def CONTRACT_TEMPLATE : Str :=
  tV1s1 ++ (vkAlphaPat ++ (tV1s2 ++ (vkBetaPat ++ (tV1s3 ++ (vkGammaPat ++
    (tV1s4 ++ (vkDeltaPat ++ tV1s5)))))))

/-- `CONTRACT_TEMPLATE_V2` (groth16.rs:277-330), the V2-dialect template
body, represented the same way as `CONTRACT_TEMPLATE`. -/
def CONTRACT_TEMPLATE_V2 : Str :=
  tV2s1 ++ (vkAlphaPat ++ (tV2s2 ++ (vkBetaPat ++ (tV2s3 ++ (vkGammaPat ++
    (tV2s4 ++ (vkDeltaPat ++ tV2s5)))))))

/-- Template body selected for an ABI dialect (groth16.rs:134-143). -/
def templateFor : SolidityAbi → Str
  | .V1 => CONTRACT_TEMPLATE
  | .V2 => CONTRACT_TEMPLATE_V2

/-- Pairing-library text selected for an ABI dialect (groth16.rs:134-143). -/
def pairingLibFor : SolidityAbi → Str
  | .V1 => SOLIDITY_PAIRING_LIB
  | .V2 => SOLIDITY_PAIRING_LIB_V2

/-- The four ordered generic-placeholder substitutions of
`export_solidity_verifier` (groth16.rs:152-166): alpha, beta, gamma, delta
in exactly that order, each replacing the leftmost remaining match of the
generic regex. -/
def vkSubstPhase (vk : VerificationKey) (t : Str) : Str :=
  replaceVk (G2Affine.toText vk.delta)
    (replaceVk (G2Affine.toText vk.gamma)
      (replaceVk (G2Affine.toText vk.beta)
        (replaceVk (G1Affine.toText vk.alpha) t)))

/-- The substitution pipeline of `export_solidity_verifier` after template
selection (groth16.rs:145-225), in source order: the four generic
substitutions, the `gamma_abc` count, the input count, the conditional
input-copy loop, the conditional input argument, and the `gamma_abc`
assignment block. -/
def substitutePhase (vk : VerificationKey) (t : Str) : Str :=
  replaceFirstLit vkGammaAbcPtsPat (gammaAbcRepeatText vk.gamma_abc)
    (replaceFirstLit inputArgumentPat
      (if vk.gamma_abc.length > 1 then inputArgumentText (vk.gamma_abc.length - 1)
       else [])
      (replaceFirstLit inputLoopPat
        (if vk.gamma_abc.length > 1 then inputLoopText else [])
        (replaceFirstLit vkInputLenPat (natText (vk.gamma_abc.length - 1))
          (replaceFirstLit vkGammaAbcLenPat (natText vk.gamma_abc.length)
            (vkSubstPhase vk t)))))

namespace G16

/-- `G16::export_solidity_verifier` (groth16.rs:133-234): template and
pairing-library selection, the substitution pipeline, the final
`uint256(..)` pass over the substituted template, and the concatenation
`G2-addition lib ++ pairing lib ++ template` (groth16.rs:230-233). -/
def export_solidity_verifier (vk : VerificationKey) (abi : SolidityAbi) : Str :=
  SOLIDITY_G2_ADDITION_LIB ++ pairingLibFor abi ++
    replaceAll64 (substitutePhase vk (templateFor abi))

end G16

/-- Alternating concatenation of (concrete piece, coordinate piece) pairs
followed by a final tail. -/
def JoinPieces : List (Str × Str) → Str → Str
  | [], tail => tail
  | (x, l) :: r, tail => x ++ (l ++ JoinPieces r tail)

/-- Joins a list of strings with a separator, with no trailing separator
after the last element. -/
def joinWithSep (sep : Str) : List Str → Str
  | [] => []
  | [x] => x
  | x :: y :: xs => x ++ sep ++ joinWithSep sep (y :: xs)

/-- The statement separator of the `gamma_abc` block: newline plus
eight-space indentation (groth16.rs:219). -/
def gammaAbcSep : Str := ("\n        ").data

/-- Number of positions of `s` at which `pat` starts (occurrence count,
counting overlaps). -/
def occCount (pat s : Str) : Nat :=
  ((List.range (s.length + 1)).filter (fun i => pat.isPrefixOf (s.drop i))).length

/-- A well-behaved marker pattern for the occurrence-splitting lemmas:
nonempty, at most 67 characters, and first and last characters outside
the hex-coordinate alphabet. -/
def patOK : Str → Bool
  | [] => false
  | c :: cs =>
    (decide ((c :: cs).length ≤ 67)) && !isSChar c && !isSChar (cs.getLastD c)

/-- Strict-prefix test (`t` is a prefix of `p` and shorter than `p`),
with recursion bounded by `p`. -/
def isStrictPre : Str → Str → Bool
  | [], s =>
    match s with
    | [] => false
    | _ :: _ => true
  | a :: as, s =>
    match s with
    | [] => false
    | b :: bs => (a == b) && isStrictPre as bs

/-- True when no nonempty suffix of `x` is a proper prefix of `pat`
(so no occurrence of `pat` can start inside `x` and continue past its
end, whatever follows). -/
def sufPre (pat : Str) : Str → Bool
  | [] => true
  | c :: cs => !(isStrictPre (c :: cs) pat) && sufPre pat cs

/-- Occurrence test: some suffix of `s` starts with `pat`.  Written so
that evaluation is lazy in long texts. -/
def occursB (pat : Str) : Str → Bool
  | [] => isPre pat []
  | c :: cs => isPre pat (c :: cs) || occursB pat cs

/-- The pattern is nonempty and its first character is outside the
hex-coordinate alphabet (true of every `<%…%>` placeholder). -/
def patHeadNotS : Str → Bool
  | [] => false
  | c :: _ => !isSChar c

/-- Conditions letting a pattern walk over the concrete glue of rendered
point texts: no occurrence (or occurrence start) of `pat` inside `, `,
`[`, `], [` or `]`. -/
def patGlueOK (pat : Str) : Bool :=
  sufPre pat ((", ").data) && !occursB pat ((", ").data) &&
  sufPre pat (("[").data) && !occursB pat (("[").data) &&
  sufPre pat (("], [").data) && !occursB pat (("], [").data) &&
  sufPre pat (("]").data) && !occursB pat (("]").data)

/-- True when no 64-hex-digit literal can start inside `x`, whatever
follows: every `'0'` in `x` is followed, within `x`, by a character other
than `x`/`X`. -/
def neverStartsLit : Str → Bool
  | [] => true
  | [c] => !(c == '0')
  | c :: d :: rest =>
    (!(c == '0') || !((d == 'x') || (d == 'X'))) && neverStartsLit (d :: rest)

/-- True when no 64-hex-digit literal starts at any position of `u` when
`u` is immediately followed by `v`. -/
def noMatchIn (u v : Str) : Bool :=
  match u with
  | [] => true
  | c :: cs => !lit64 ((c :: cs) ++ v) && noMatchIn cs v

/-- A full 66-character hex literal: `0x`/`0X` plus exactly 64 hex
digits — the canonical coordinate rendering and exactly the text the
final-pass regex matches. -/
def coordLit (s : Str) : Bool :=
  lit64 s && (s.length == 66)

/-- A string with no `<` character (enough for the generic placeholder
regex to find no match inside it). -/
def noLtStr (s : Str) : Bool :=
  s.all (fun c => !(c == '<'))

/-- All four scalar-placeholder substitution sources of a key are free of
`<` (hypothesis of the positional-substitution theorem; any real key has
hex-string coordinates, which satisfy it). -/
def vkNoLt (vk : VerificationKey) : Bool :=
  noLtStr vk.alpha.1 && noLtStr vk.alpha.2 &&
  noLtStr (vk.beta.1).1 && noLtStr (vk.beta.1).2 &&
  noLtStr (vk.beta.2).1 && noLtStr (vk.beta.2).2 &&
  noLtStr (vk.gamma.1).1 && noLtStr (vk.gamma.1).2 &&
  noLtStr (vk.gamma.2).1 && noLtStr (vk.gamma.2).2 &&
  noLtStr (vk.delta.1).1 && noLtStr (vk.delta.1).2 &&
  noLtStr (vk.delta.2).1 && noLtStr (vk.delta.2).2

/-- All fourteen alpha/beta/gamma/delta coordinates of a key are
canonical 66-character hex literals. -/
def vkCoordsCanon (vk : VerificationKey) : Bool :=
  coordLit vk.alpha.1 && coordLit vk.alpha.2 &&
  coordLit (vk.beta.1).1 && coordLit (vk.beta.1).2 &&
  coordLit (vk.beta.2).1 && coordLit (vk.beta.2).2 &&
  coordLit (vk.gamma.1).1 && coordLit (vk.gamma.1).2 &&
  coordLit (vk.gamma.2).1 && coordLit (vk.gamma.2).2 &&
  coordLit (vk.delta.1).1 && coordLit (vk.delta.1).2 &&
  coordLit (vk.delta.2).1 && coordLit (vk.delta.2).2

/-- V1 entry-point signature tail for a key with no public inputs: the
parameter list ends at the third fixed proof argument. -/
def v1NoInputSig : Str :=
  ("uint[2] memory c\n        ) public view returns (bool r)").data

/-- V2 entry-point signature tail for a key with no public inputs: the
parameter list ends at the single proof argument. -/
def v2NoInputSig : Str :=
  ("Proof memory proof\n        ) public view returns (bool r)").data

/-- Zero-public-input entry-point signature for each dialect. -/
def entrySigFor : SolidityAbi → Str
  | .V1 => v1NoInputSig
  | .V2 => v2NoInputSig

/-- The opening characters of every template placeholder. -/
def placeholderOpen : Str := ("<%").data

/-- A trivial engine for concrete witnesses: moduli `2^256`, curve checks
and pairing check constantly true. -/
def Etriv : Engine :=
  ⟨2 ^ 256, 2 ^ 256, fun _ _ => true, fun _ _ => true, fun _ _ _ => true⟩

/-- A small example key with short hex coordinates. -/
def exVkW : VerificationKey :=
  { alpha := (("0x04").data, ("0x05").data)
  , beta := ((("0x06").data, ("0x07").data), (("0x08").data, ("0x09").data))
  , gamma := ((("0x0a").data, ("0x0b").data), (("0x0c").data, ("0x0d").data))
  , delta := ((("0x0e").data, ("0x0f").data), (("0x10").data, ("0x11").data))
  , gamma_abc := [(("0x12").data, ("0x13").data)] }

/-- Example proof points with short hex coordinates. -/
def exPts : ProofPoints :=
  { a := (("0x01").data, ("0x02").data)
  , b := ((("0x03").data, ("0x04").data), (("0x05").data, ("0x06").data))
  , c := (("0x07").data, ("0x08").data) }

/-- Example envelope whose single public-input string is not valid hex. -/
def exPfBad : Proof :=
  { proof := exPts, inputs := [("xyz").data], raw := [] }

/-- Example envelope with one public input against a key expecting none. -/
def exPfMis : Proof :=
  { proof := exPts, inputs := [("1").data], raw := [] }

/-- Example portable G2 point with short hex limbs. -/
def exG2 : G2Affine :=
  ((("0x06").data, ("0x07").data), (("0x08").data, ("0x09").data))

/-- A canonical 66-character coordinate (`0x` + 64 `a`s). -/
def canonCoord : Str := '0' :: 'x' :: List.replicate 64 'a'

/-- A canonical 66-character coordinate with an upper-case `X` prefix. -/
def canonCoordX : Str := '0' :: 'X' :: List.replicate 64 'F'

/-- A canonical example key with a single `gamma_abc` entry (zero public
inputs), used to witness the zero-input generator theorem. -/
def canonVk : VerificationKey :=
  { alpha := (canonCoord, canonCoord)
  , beta := ((canonCoord, canonCoord), (canonCoord, canonCoord))
  , gamma := ((canonCoord, canonCoord), (canonCoord, canonCoord))
  , delta := ((canonCoord, canonCoord), (canonCoord, canonCoord))
  , gamma_abc := [(canonCoord, canonCoord)] }

/-- Two-entry `gamma_abc` (a key with exactly one public input) used in
the counterexample about the number of generated assignment statements. -/
def exGammaAbcTwo : List G1Affine :=
  [(("0x01").data, ("0x02").data), (("0x03").data, ("0x04").data)]

/-- The fragment every generated `gamma_abc` assignment statement
contains exactly once. -/
def stmtMarker : Str := ("] = Pairing.G1Point(").data

/-- The fixed head of the single generated `gamma_abc` assignment
statement of a one-entry key: `vk.gamma_abc[0] = Pairing.G1Point(`. -/
def stmtHead : Str :=
  ("vk.gamma_abc[").data ++ ((("0").data) ++ ("] = Pairing.G1Point(").data)

/-- The text the final pass wraps around each matched literal, left part. -/
def uintOpen : Str := ("uint256(").data

/-- The text the final pass wraps around each matched literal, right part. -/
def parenT : Str := (")").data

/-- The body of the input-copy loop: the statement the loop text (and only
it) contains, used as a short marker for the loop's presence. -/
def loopMarker : Str := ("inputValues[i] = input[i]").data

/-- The substituted V1 template up to (and excluding) the closing bracket
after delta, as alternating (concrete glue, coordinate) pieces. -/
def stdPairsV1 (vk : VerificationKey) : List (Str × Str) :=
  [(tV1s1, vk.alpha.1), ((", ".data), vk.alpha.2),
   (tV1s2 ++ ("[".data), (vk.beta.1).1), ((", ".data), (vk.beta.1).2),
   (("], [".data), (vk.beta.2).1), ((", ".data), (vk.beta.2).2),
   (("]".data) ++ (tV1s3 ++ ("[".data)), (vk.gamma.1).1), ((", ".data), (vk.gamma.1).2),
   (("], [".data), (vk.gamma.2).1), ((", ".data), (vk.gamma.2).2),
   (("]".data) ++ (tV1s4 ++ ("[".data)), (vk.delta.1).1), ((", ".data), (vk.delta.1).2),
   (("], [".data), (vk.delta.2).1), ((", ".data), (vk.delta.2).2)]

/-- The substituted V2 template up to (and excluding) the closing bracket
after delta, as alternating (concrete glue, coordinate) pieces. -/
def stdPairsV2 (vk : VerificationKey) : List (Str × Str) :=
  [(tV2s1, vk.alpha.1), ((", ".data), vk.alpha.2),
   (tV2s2 ++ ("[".data), (vk.beta.1).1), ((", ".data), (vk.beta.1).2),
   (("], [".data), (vk.beta.2).1), ((", ".data), (vk.beta.2).2),
   (("]".data) ++ (tV2s3 ++ ("[".data)), (vk.gamma.1).1), ((", ".data), (vk.gamma.1).2),
   (("], [".data), (vk.gamma.2).1), ((", ".data), (vk.gamma.2).2),
   (("]".data) ++ (tV2s4 ++ ("[".data)), (vk.delta.1).1), ((", ".data), (vk.delta.1).2),
   (("], [".data), (vk.delta.2).1), ((", ".data), (vk.delta.2).2)]

/-- The placeholder pattern can walk over every concrete glue piece of
`stdPairsV1`: no occurrence, and no occurrence start, inside any of them. -/
def patStdOKV1 (pat : Str) : Bool :=
  sufPre pat tV1s1 && !occursB pat tV1s1 &&
  sufPre pat (tV1s2 ++ ("[".data)) && !occursB pat (tV1s2 ++ ("[".data)) &&
  sufPre pat (("]".data) ++ (tV1s3 ++ ("[".data))) &&
    !occursB pat (("]".data) ++ (tV1s3 ++ ("[".data))) &&
  sufPre pat (("]".data) ++ (tV1s4 ++ ("[".data))) &&
    !occursB pat (("]".data) ++ (tV1s4 ++ ("[".data))) &&
  sufPre pat (", ".data) && !occursB pat (", ".data) &&
  sufPre pat ("], [".data) && !occursB pat ("], [".data)

/-- The placeholder pattern can walk over every concrete glue piece of
`stdPairsV2`. -/
def patStdOKV2 (pat : Str) : Bool :=
  sufPre pat tV2s1 && !occursB pat tV2s1 &&
  sufPre pat (tV2s2 ++ ("[".data)) && !occursB pat (tV2s2 ++ ("[".data)) &&
  sufPre pat (("]".data) ++ (tV2s3 ++ ("[".data))) &&
    !occursB pat (("]".data) ++ (tV2s3 ++ ("[".data))) &&
  sufPre pat (("]".data) ++ (tV2s4 ++ ("[".data))) &&
    !occursB pat (("]".data) ++ (tV2s4 ++ ("[".data))) &&
  sufPre pat (", ".data) && !occursB pat (", ".data) &&
  sufPre pat ("], [".data) && !occursB pat ("], [".data)

/-- No occurrence of `P` in any concrete glue piece of `stdPairsV2`. -/
def patNotInStdV2 (P : Str) : Bool :=
  !occursB P tV2s1 &&
  !occursB P (tV2s2 ++ ("[".data)) &&
  !occursB P (("]".data) ++ (tV2s3 ++ ("[".data))) &&
  !occursB P (("]".data) ++ (tV2s4 ++ ("[".data))) &&
  !occursB P (", ".data) &&
  !occursB P ("], [".data)

/-- The concrete text following the last coordinate in the finished V1
output of a one-entry key. -/
def finalTailV1 : Str :=
  parenT ++ ((");").data ++ (tV1argA ++ (tV1ilA ++ ((("0").data) ++
    (tV1loopA ++ tV1loopB)))))

/-- The concrete text following the last coordinate in the finished V2
output of a one-entry key. -/
def finalTailV2 : Str :=
  parenT ++ ((");").data ++ (tV2argA ++ (tV2loopA ++ tV2loopB)))

/-- The finished V1 output of a one-entry key as alternating
(concrete glue, coordinate) pieces: every coordinate is now wrapped in
`uint256( … )` and every placeholder is gone. -/
def finalPairsV1 (vk : VerificationKey) (g : G1Affine) : List (Str × Str) :=
  [(SOLIDITY_G2_ADDITION_LIB ++ (SOLIDITY_PAIRING_LIB ++ (tV1s1 ++ uintOpen)),
      vk.alpha.1),
   (parenT ++ ((", ".data) ++ uintOpen), vk.alpha.2),
   (parenT ++ (tV1s2 ++ (("[".data) ++ uintOpen)), (vk.beta.1).1),
   (parenT ++ ((", ".data) ++ uintOpen), (vk.beta.1).2),
   (parenT ++ (("], [".data) ++ uintOpen), (vk.beta.2).1),
   (parenT ++ ((", ".data) ++ uintOpen), (vk.beta.2).2),
   (parenT ++ (("]".data) ++ (tV1s3 ++ (("[".data) ++ uintOpen))), (vk.gamma.1).1),
   (parenT ++ ((", ".data) ++ uintOpen), (vk.gamma.1).2),
   (parenT ++ (("], [".data) ++ uintOpen), (vk.gamma.2).1),
   (parenT ++ ((", ".data) ++ uintOpen), (vk.gamma.2).2),
   (parenT ++ (("]".data) ++ (tV1s4 ++ (("[".data) ++ uintOpen))), (vk.delta.1).1),
   (parenT ++ ((", ".data) ++ uintOpen), (vk.delta.1).2),
   (parenT ++ (("], [".data) ++ uintOpen), (vk.delta.2).1),
   (parenT ++ ((", ".data) ++ uintOpen), (vk.delta.2).2),
   (parenT ++ (("]".data) ++ (tV1lenA ++ ((("1").data) ++ (tV1ptsA ++
      (stmtHead ++ uintOpen))))), g.1),
   (parenT ++ ((", ".data) ++ uintOpen), g.2)]

/-- The finished V2 output of a one-entry key as alternating
(concrete glue, coordinate) pieces. -/
def finalPairsV2 (vk : VerificationKey) (g : G1Affine) : List (Str × Str) :=
  [(SOLIDITY_G2_ADDITION_LIB ++ (SOLIDITY_PAIRING_LIB_V2 ++ (tV2s1 ++ uintOpen)),
      vk.alpha.1),
   (parenT ++ ((", ".data) ++ uintOpen), vk.alpha.2),
   (parenT ++ (tV2s2 ++ (("[".data) ++ uintOpen)), (vk.beta.1).1),
   (parenT ++ ((", ".data) ++ uintOpen), (vk.beta.1).2),
   (parenT ++ (("], [".data) ++ uintOpen), (vk.beta.2).1),
   (parenT ++ ((", ".data) ++ uintOpen), (vk.beta.2).2),
   (parenT ++ (("]".data) ++ (tV2s3 ++ (("[".data) ++ uintOpen))), (vk.gamma.1).1),
   (parenT ++ ((", ".data) ++ uintOpen), (vk.gamma.1).2),
   (parenT ++ (("], [".data) ++ uintOpen), (vk.gamma.2).1),
   (parenT ++ ((", ".data) ++ uintOpen), (vk.gamma.2).2),
   (parenT ++ (("]".data) ++ (tV2s4 ++ (("[".data) ++ uintOpen))), (vk.delta.1).1),
   (parenT ++ ((", ".data) ++ uintOpen), (vk.delta.1).2),
   (parenT ++ (("], [".data) ++ uintOpen), (vk.delta.2).1),
   (parenT ++ ((", ".data) ++ uintOpen), (vk.delta.2).2),
   (parenT ++ (("]".data) ++ (tV2lenA ++ ((("1").data) ++ (tV2ptsA ++
      (stmtHead ++ uintOpen))))), g.1),
   (parenT ++ ((", ".data) ++ uintOpen), g.2)]

/-- No occurrence of `P` in any concrete glue piece (or the tail) of the
finished V1 output of a one-entry key. -/
def patFreeV1 (P : Str) : Bool :=
  !occursB P (SOLIDITY_G2_ADDITION_LIB ++ (SOLIDITY_PAIRING_LIB ++
    (tV1s1 ++ uintOpen))) &&
  !occursB P (parenT ++ ((", ".data) ++ uintOpen)) &&
  !occursB P (parenT ++ (tV1s2 ++ (("[".data) ++ uintOpen))) &&
  !occursB P (parenT ++ (("], [".data) ++ uintOpen)) &&
  !occursB P (parenT ++ (("]".data) ++ (tV1s3 ++ (("[".data) ++ uintOpen)))) &&
  !occursB P (parenT ++ (("]".data) ++ (tV1s4 ++ (("[".data) ++ uintOpen)))) &&
  !occursB P (parenT ++ (("]".data) ++ (tV1lenA ++ ((("1").data) ++ (tV1ptsA ++
    (stmtHead ++ uintOpen)))))) &&
  !occursB P finalTailV1

/-- No occurrence of `P` in any concrete glue piece (or the tail) of the
finished V2 output of a one-entry key. -/
def patFreeV2 (P : Str) : Bool :=
  !occursB P (SOLIDITY_G2_ADDITION_LIB ++ (SOLIDITY_PAIRING_LIB_V2 ++
    (tV2s1 ++ uintOpen))) &&
  !occursB P (parenT ++ ((", ".data) ++ uintOpen)) &&
  !occursB P (parenT ++ (tV2s2 ++ (("[".data) ++ uintOpen))) &&
  !occursB P (parenT ++ (("], [".data) ++ uintOpen)) &&
  !occursB P (parenT ++ (("]".data) ++ (tV2s3 ++ (("[".data) ++ uintOpen)))) &&
  !occursB P (parenT ++ (("]".data) ++ (tV2s4 ++ (("[".data) ++ uintOpen)))) &&
  !occursB P (parenT ++ (("]".data) ++ (tV2lenA ++ ((("1").data) ++ (tV2ptsA ++
    (stmtHead ++ uintOpen)))))) &&
  !occursB P finalTailV2

theorem not_infix_nil {P : Str} (h : P ≠ []) : ¬ P <:+: ([] : Str) := by
  rintro ⟨u, v, huv⟩
  simp only [List.append_eq_nil] at huv
  exact h huv.1.2

theorem infix_append_left {P w : Str} (x : Str) (h : P <:+: w) : P <:+: x ++ w := by
  obtain ⟨u, v, hu⟩ := h
  exact ⟨x ++ u, v, by rw [← hu]; simp⟩

theorem infix_append_right {P x : Str} (w : Str) (h : P <:+: x) : P <:+: x ++ w := by
  obtain ⟨u, v, hu⟩ := h
  exact ⟨u, v ++ w, by rw [← hu]; simp⟩

theorem infix_cons_split {P : Str} {c : Char} {R : Str} (h : P <:+: c :: R) :
    P <+: c :: R ∨ P <:+: R := by
  obtain ⟨u, v, hu⟩ := h
  cases u with
  | nil => exact Or.inl ⟨v, by simpa using hu⟩
  | cons a u' =>
    refine Or.inr ⟨u', v, ?_⟩
    have : a :: (u' ++ P ++ v) = c :: R := by simpa using hu
    exact (List.cons.injEq _ _ _ _ ▸ this).2

theorem prefix_head {P : Str} {c : Char} {R : Str} (h : P <+: c :: R) (hne : P ≠ []) :
    ∃ P', P = c :: P' := by
  obtain ⟨t, ht⟩ := h
  cases P with
  | nil => exact absurd rfl hne
  | cons p ps =>
    have : p = c := by
      have := ht
      simp only [List.cons_append] at this
      exact (List.cons.injEq _ _ _ _ ▸ this).1
    exact ⟨ps, by rw [this]⟩

theorem prefix_append_of_le {P x w : Str} (h : P <+: x ++ w) (hl : P.length ≤ x.length) :
    P <+: x := by
  have hP : P = (x ++ w).take P.length := List.prefix_iff_eq_take.mp h
  have h2 : (x ++ w).take P.length = x.take P.length := by
    rw [List.take_append_eq_append_take, Nat.sub_eq_zero_of_le hl, List.take_zero,
      List.append_nil]
  rw [hP, h2]
  exact List.take_prefix _ _

theorem prefix_middle_case {P x L w : Str} (h : P <+: x ++ (L ++ w))
    (h1 : x.length < P.length) (h2 : P.length ≤ x.length + L.length) :
    P = x ++ L.take (P.length - x.length) := by
  have hP : P = (x ++ (L ++ w)).take P.length := List.prefix_iff_eq_take.mp h
  rw [List.take_append_eq_append_take, List.take_of_length_le (Nat.le_of_lt h1),
    List.take_append_eq_append_take] at hP
  have h3 : P.length - x.length - L.length = 0 := by omega
  rw [h3, List.take_zero, List.append_nil] at hP
  exact hP

theorem getLastD_spec (c : Char) (cs : Str) :
    cs.getLastD c = (c :: cs).getLast (by simp) := by
  induction cs generalizing c with
  | nil => simp
  | cons d ds ih =>
    rw [List.getLastD_cons, ih d]
    exact (List.getLast_cons (by simp)).symm

theorem isPre_prefix_iff : ∀ {l₁ l₂ : Str}, isPre l₁ l₂ = true ↔ l₁ <+: l₂ := by
  intro l₁
  induction l₁ with
  | nil =>
    intro l₂
    constructor
    · intro _; exact ⟨l₂, rfl⟩
    · intro _; rfl
  | cons a as ih =>
    intro l₂
    cases l₂ with
    | nil =>
      constructor
      · intro h; simp [isPre] at h
      · rintro ⟨t, ht⟩; simp at ht
    | cons b bs =>
      simp only [isPre, Bool.and_eq_true, beq_iff_eq]
      constructor
      · rintro ⟨rfl, h⟩
        obtain ⟨t, ht⟩ := ih.mp h
        exact ⟨t, by rw [List.cons_append, ht]⟩
      · rintro ⟨t, ht⟩
        rw [List.cons_append] at ht
        have h1 : a = b := (List.cons.injEq _ _ _ _ ▸ ht).1
        have h2 : as ++ t = bs := (List.cons.injEq _ _ _ _ ▸ ht).2
        exact ⟨h1, ih.mpr ⟨t, h2⟩⟩

theorem isStrictPre_iff : ∀ {t p : Str},
    isStrictPre t p = true ↔ t <+: p ∧ t.length < p.length := by
  intro t
  induction t with
  | nil =>
    intro p
    cases p with
    | nil => simp [isStrictPre]
    | cons b bs => simp [isStrictPre]
  | cons a as ih =>
    intro p
    cases p with
    | nil =>
      constructor
      · intro h; simp [isStrictPre] at h
      · rintro ⟨⟨t, ht⟩, _⟩; simp at ht
    | cons b bs =>
      simp only [isStrictPre, Bool.and_eq_true, beq_iff_eq, ih]
      constructor
      · rintro ⟨rfl, h1, h2⟩
        obtain ⟨t, ht⟩ := h1
        exact ⟨⟨t, by rw [List.cons_append, ht]⟩, by simpa using h2⟩
      · rintro ⟨⟨t, ht⟩, h2⟩
        rw [List.cons_append] at ht
        have e1 : a = b := (List.cons.injEq _ _ _ _ ▸ ht).1
        have e2 : as ++ t = bs := (List.cons.injEq _ _ _ _ ▸ ht).2
        exact ⟨e1, ⟨t, e2⟩, by simpa using h2⟩

theorem patOK_dest {c : Char} {cs : Str} (h : patOK (c :: cs) = true) :
    (c :: cs).length ≤ 67 ∧ isSChar c = false ∧ isSChar (cs.getLastD c) = false := by
  simp only [patOK, Bool.and_eq_true, decide_eq_true_eq, Bool.not_eq_true'] at h
  exact ⟨h.1.1, h.1.2, h.2⟩

theorem all_schar_mem {L : Str} (hL : L.all isSChar = true) {c : Char} (hc : c ∈ L) :
    isSChar c = true := by
  rw [List.all_eq_true] at hL
  exact hL c hc

theorem not_prefix_of_patOK {P x L w : Str} (hP : patOK P = true)
    (hx : ¬ P <:+: x) (hL : L.all isSChar = true) (hLlen : 66 ≤ L.length) :
    ¬ P <+: x ++ (L ++ w) := by
  intro h
  cases P with
  | nil => simp [patOK] at hP
  | cons p ps =>
    obtain ⟨hlen, hhead, hlast⟩ := patOK_dest hP
    rcases Nat.lt_or_ge x.length (p :: ps).length with h1 | h1
    · rcases le_or_lt (p :: ps).length (x.length + L.length) with h2 | h2
      · -- the occurrence ends inside `L`: the last char of `P` is an `L` char
        have hPx := prefix_middle_case h h1 h2
        have htne : L.take ((p :: ps).length - x.length) ≠ [] := by
          have : (L.take ((p :: ps).length - x.length)).length =
              min ((p :: ps).length - x.length) L.length := by simp
          intro hnil
          rw [hnil] at this
          simp only [List.length_nil] at this
          omega
        have e1 : (p :: ps).getLast? = (L.take ((p :: ps).length - x.length)).getLast? := by
          conv_lhs => rw [hPx]
          exact List.getLast?_append_of_ne_nil x htne
        have e2 : (p :: ps).getLast? = some (ps.getLastD p) := by
          rw [List.getLast?_eq_getLast (p :: ps) (by simp), getLastD_spec]
        have e3 : ps.getLastD p ∈ L.take ((p :: ps).length - x.length) := by
          have : ps.getLastD p ∈ (L.take ((p :: ps).length - x.length)).getLast? := by
            rw [← e1, e2]; rfl
          obtain ⟨hh, hgl⟩ := List.mem_getLast?_eq_getLast this
          rw [hgl]
          exact List.getLast_mem hh
        have := all_schar_mem hL (List.take_subset _ _ e3)
        rw [this] at hlast
        simp at hlast
      · -- the occurrence would span the whole of `L`
        cases x with
        | nil =>
          cases L with
          | nil => simp at hLlen
          | cons l0 L' =>
            simp only [List.nil_append, List.cons_append] at h
            obtain ⟨P', hP'⟩ := prefix_head h (by simp)
            have hs : isSChar l0 = true := all_schar_mem hL (by simp)
            have hpl : p = l0 := (List.cons.injEq _ _ _ _ ▸ hP').1
            rw [hpl, hs] at hhead
            simp at hhead
        | cons a x' =>
          have : (a :: x').length ≥ 1 := by simp
          omega
    · exact hx (prefix_append_of_le h h1).isInfix

theorem not_infix_schar_append {P L w : Str} (hP : patOK P = true)
    (hL : L.all isSChar = true) (hw : ¬ P <:+: w) : ¬ P <:+: L ++ w := by
  induction L with
  | nil => simpa using hw
  | cons c L' ih =>
    intro h
    rcases infix_cons_split (by simpa using h) with hpre | hinf
    · cases P with
      | nil => simp [patOK] at hP
      | cons p ps =>
        obtain ⟨_, hhead, _⟩ := patOK_dest hP
        obtain ⟨P', hP'⟩ := prefix_head hpre (by simp)
        have hpc : p = c := (List.cons.injEq _ _ _ _ ▸ hP').1
        have : isSChar c = true := all_schar_mem hL (by simp)
        rw [hpc, this] at hhead
        simp at hhead
    · exact ih (by simp_all [List.all_eq_true]) hinf

theorem not_infix_append_lit {P x L w : Str} (hP : patOK P = true)
    (hx : ¬ P <:+: x) (hL : L.all isSChar = true) (hLlen : 66 ≤ L.length)
    (hw : ¬ P <:+: w) : ¬ P <:+: x ++ (L ++ w) := by
  induction x with
  | nil =>
    simpa using not_infix_schar_append hP hL hw
  | cons c x' ih =>
    intro h
    rcases infix_cons_split (by simpa using h) with hpre | hinf
    · exact not_prefix_of_patOK hP hx hL hLlen (by simpa using hpre)
    · have hx' : ¬ P <:+: x' := fun hin => hx (infix_append_left [c] hin)
      exact ih hx' hinf

theorem not_infix_JoinPieces {P : Str} (hP : patOK P = true) :
    ∀ (pairs : List (Str × Str)) (tail : Str),
      (∀ pr ∈ pairs, ¬ P <:+: pr.1 ∧ pr.2.all isSChar = true ∧ 66 ≤ pr.2.length) →
      ¬ P <:+: tail → ¬ P <:+: JoinPieces pairs tail := by
  intro pairs
  induction pairs with
  | nil => intro tail _ ht; simpa [JoinPieces] using ht
  | cons pr r ih =>
    intro tail h ht
    obtain ⟨x, l⟩ := pr
    have hh := h (x, l) (by simp)
    simp only [JoinPieces]
    exact not_infix_append_lit hP hh.1 hh.2.1 hh.2.2
      (ih tail (fun q hq => h q (by simp [hq])) ht)

theorem infix_JoinPieces_tail {P tail : Str} (pairs : List (Str × Str))
    (h : P <:+: tail) : P <:+: JoinPieces pairs tail := by
  induction pairs with
  | nil => simpa [JoinPieces]
  | cons pr r ih =>
    obtain ⟨x, l⟩ := pr
    simp only [JoinPieces]
    exact infix_append_left x (infix_append_left l ih)

theorem append_prefix_of_lt {P x w : Str} (h : P <+: x ++ w) (hl : x.length < P.length) :
    x <+: P := by
  obtain ⟨t, ht⟩ := h
  have hx : x = (P ++ t).take x.length := by
    rw [ht, List.take_left]
  rw [List.take_append_eq_append_take, Nat.sub_eq_zero_of_le (Nat.le_of_lt hl),
    List.take_zero, List.append_nil] at hx
  rw [hx]
  exact List.take_prefix _ _

theorem replaceFirstLit_skip_conc {pat : Str} (repl : Str) :
    ∀ (x : Str), sufPre pat x = true → ¬ pat <:+: x →
      ∀ w, replaceFirstLit pat repl (x ++ w) = x ++ replaceFirstLit pat repl w := by
  intro x
  induction x with
  | nil => intro _ _ w; simp
  | cons c x' ih =>
    intro h1 h2 w
    have hnp : isPre pat ((c :: x') ++ w) = false := by
      by_contra hb
      have hpre : pat <+: (c :: x') ++ w :=
        isPre_prefix_iff.mp (Bool.of_not_eq_false hb)
      rcases Nat.lt_or_ge (c :: x').length pat.length with hl | hl
      · have hxp : (c :: x') <+: pat := append_prefix_of_lt hpre hl
        have hsp : isStrictPre (c :: x') pat = true := isStrictPre_iff.mpr ⟨hxp, hl⟩
        simp only [sufPre, Bool.and_eq_true, Bool.not_eq_true'] at h1
        rw [hsp] at h1
        simp at h1
      · exact h2 (prefix_append_of_le hpre hl).isInfix
    have hsuf : sufPre pat x' = true := by
      simp only [sufPre, Bool.and_eq_true] at h1
      exact h1.2
    have hinf : ¬ pat <:+: x' := fun hin => h2 (infix_append_left [c] hin)
    calc replaceFirstLit pat repl ((c :: x') ++ w)
        = replaceFirstLit pat repl (c :: (x' ++ w)) := by simp
      _ = c :: replaceFirstLit pat repl (x' ++ w) := by
          rw [replaceFirstLit]
          simp only [List.cons_append] at hnp
          rw [hnp]
          simp
      _ = c :: (x' ++ replaceFirstLit pat repl w) := by rw [ih hsuf hinf w]
      _ = (c :: x') ++ replaceFirstLit pat repl w := by simp

theorem replaceFirstLit_skip_schars {pat : Str}
    (hh : patHeadNotS pat = true) (repl : Str) :
    ∀ (L : Str), L.all isSChar = true →
      ∀ w, replaceFirstLit pat repl (L ++ w) = L ++ replaceFirstLit pat repl w := by
  obtain ⟨p₀, pr, hpat, hp₀⟩ : ∃ p₀ pr, pat = p₀ :: pr ∧ isSChar p₀ = false := by
    cases pat with
    | nil => simp [patHeadNotS] at hh
    | cons c cs =>
      simp only [patHeadNotS, Bool.not_eq_true'] at hh
      exact ⟨c, cs, rfl, hh⟩
  intro L
  induction L with
  | nil => intro _ w; simp
  | cons c L' ih =>
    intro hL w
    have hc : isSChar c = true := all_schar_mem hL (by simp)
    have hnp : isPre pat ((c :: L') ++ w) = false := by
      rw [hpat]
      simp only [List.cons_append, isPre]
      have : (p₀ == c) = false := by
        refine beq_eq_false_iff_ne.mpr ?_
        intro hh2
        rw [hh2, hc] at hp₀
        simp at hp₀
      rw [this]
      simp
    have hL' : L'.all isSChar = true := by
      simp only [List.all_cons, Bool.and_eq_true] at hL
      exact hL.2
    calc replaceFirstLit pat repl ((c :: L') ++ w)
        = replaceFirstLit pat repl (c :: (L' ++ w)) := by simp
      _ = c :: replaceFirstLit pat repl (L' ++ w) := by
          rw [replaceFirstLit]
          simp only [List.cons_append] at hnp
          rw [hnp]
          simp
      _ = c :: (L' ++ replaceFirstLit pat repl w) := by rw [ih hL' w]
      _ = (c :: L') ++ replaceFirstLit pat repl w := by simp

theorem replaceFirstLit_match {pat : Str} (hne : pat ≠ []) (repl v : Str) :
    replaceFirstLit pat repl (pat ++ v) = repl ++ v := by
  cases pat with
  | nil => exact absurd rfl hne
  | cons p ps =>
    have hpre : isPre (p :: ps) ((p :: ps) ++ v) = true :=
      isPre_prefix_iff.mpr ⟨v, rfl⟩
    calc replaceFirstLit (p :: ps) repl ((p :: ps) ++ v)
        = replaceFirstLit (p :: ps) repl (p :: (ps ++ v)) := by simp
      _ = repl ++ (p :: (ps ++ v)).drop (p :: ps).length := by
          rw [replaceFirstLit]
          simp only [List.cons_append] at hpre
          rw [hpre]
          simp
      _ = repl ++ v := by
          have : (p :: (ps ++ v)) = (p :: ps) ++ v := by simp
          rw [this, List.drop_left]

theorem replaceFirstLit_none {pat : Str} (repl : Str) :
    ∀ {s : Str}, ¬ pat <:+: s → replaceFirstLit pat repl s = s := by
  intro s
  induction s with
  | nil =>
    intro h
    cases pat with
    | nil => exact absurd ⟨[], [], rfl⟩ h
    | cons p ps => simp [replaceFirstLit, isPre]
  | cons c cs ih =>
    intro h
    have hnp : isPre pat (c :: cs) = false := by
      by_contra hb
      exact h (isPre_prefix_iff.mp (Bool.of_not_eq_false hb)).isInfix
    rw [replaceFirstLit, hnp]
    simp only [Bool.false_eq_true, if_false]
    rw [ih (fun hin => h (infix_append_left [c] hin))]

theorem replaceFirstLit_JoinPieces {pat : Str}
    (hhead : patHeadNotS pat = true) (repl : Str) :
    ∀ (pairs : List (Str × Str)) (tail : Str),
      (∀ q ∈ pairs, (sufPre pat q.1 = true ∧ ¬ pat <:+: q.1) ∧ q.2.all isSChar = true) →
      replaceFirstLit pat repl (JoinPieces pairs tail) =
        JoinPieces pairs (replaceFirstLit pat repl tail) := by
  intro pairs
  induction pairs with
  | nil => intro tail _; simp [JoinPieces]
  | cons q r ih =>
    intro tail h
    obtain ⟨x, l⟩ := q
    have hh := h (x, l) (by simp)
    simp only [JoinPieces]
    rw [replaceFirstLit_skip_conc repl x hh.1.1 hh.1.2,
      replaceFirstLit_skip_schars hhead repl l hh.2,
      ih tail (fun q hq => h q (by simp [hq]))]

theorem noLtStr_spec {u : Str} (h : noLtStr u = true) : ∀ c ∈ u, ¬ c = '<' := by
  intro c hc he
  simp only [noLtStr, List.all_eq_true] at h
  have := h c hc
  rw [he] at this
  simp at this

theorem replaceVk_skip (repl : Str) :
    ∀ (u : Str), (∀ c ∈ u, ¬ c = '<') →
      ∀ w, replaceVk repl (u ++ w) = u ++ replaceVk repl w := by
  intro u
  induction u with
  | nil => intro _ w; simp
  | cons c u' ih =>
    intro hu w
    have hc : ('<' == c) = false := by
      refine beq_eq_false_iff_ne.mpr ?_
      intro hh
      exact hu c (by simp) hh.symm
    have hm : vkMatchLen (c :: (u' ++ w)) = none := by
      rw [vkMatchLen]
      have hpp : (isPre ("<%vk_".data) (c :: (u' ++ w))) = false := by
        show (isPre ('<' :: "%vk_".data) (c :: (u' ++ w))) = false
        simp only [isPre, hc, Bool.false_and]
      rw [hpp]
      simp
    calc replaceVk repl ((c :: u') ++ w)
        = replaceVk repl (c :: (u' ++ w)) := by simp
      _ = c :: replaceVk repl (u' ++ w) := by rw [replaceVk, hm]
      _ = c :: (u' ++ replaceVk repl w) := by rw [ih (fun d hd => hu d (by simp [hd])) w]
      _ = (c :: u') ++ replaceVk repl w := by simp

theorem replaceVk_match (repl : Str) {P : Str} (v : Str)
    (hm : vkMatchLen (P ++ v) = some P.length) (hne : P ≠ []) :
    replaceVk repl (P ++ v) = repl ++ v := by
  cases P with
  | nil => exact absurd rfl hne
  | cons p ps =>
    have hm' : vkMatchLen (p :: (ps ++ v)) = some (p :: ps).length := by
      simpa using hm
    calc replaceVk repl ((p :: ps) ++ v)
        = replaceVk repl (p :: (ps ++ v)) := by simp
      _ = repl ++ (p :: (ps ++ v)).drop (p :: ps).length := by rw [replaceVk, hm']
      _ = repl ++ v := by
          have : (p :: (ps ++ v)) = (p :: ps) ++ v := by simp
          rw [this, List.drop_left]

theorem vkMatchLen_alpha (v : Str) :
    vkMatchLen (vkAlphaPat ++ v) = some vkAlphaPat.length := rfl

theorem vkMatchLen_beta (v : Str) :
    vkMatchLen (vkBetaPat ++ v) = some vkBetaPat.length := rfl

theorem vkMatchLen_gamma (v : Str) :
    vkMatchLen (vkGammaPat ++ v) = some vkGammaPat.length := rfl

theorem vkMatchLen_delta (v : Str) :
    vkMatchLen (vkDeltaPat ++ v) = some vkDeltaPat.length := rfl

theorem lit64_dest {L : Str} (h : lit64 L = true) :
    ∃ c x rest, L = c :: x :: rest ∧ c = '0' ∧ ((x == 'x') || (x == 'X')) = true ∧
      (rest.take 64).length = 64 ∧ (rest.take 64).all isHexDigitB = true := by
  match L with
  | [] => simp [lit64] at h
  | [c] => simp [lit64] at h
  | c :: x :: rest =>
    simp only [lit64, Bool.and_eq_true, beq_iff_eq] at h
    exact ⟨c, x, rest, rfl, h.1.1.1, h.1.1.2, h.1.2, h.2⟩

theorem lit64_false_of_head {c : Char} (hc : (c == '0') = false) (z : Str) :
    lit64 (c :: z) = false := by
  cases z with
  | nil => simp [lit64]
  | cons d ds => simp [lit64, hc]

theorem lit64_false_of_second {c d : Char} (hd : ((d == 'x') || (d == 'X')) = false)
    (z : Str) : lit64 (c :: d :: z) = false := by
  simp [lit64, hd]

theorem neverStartsLit_tail {c : Char} {cs : Str} (h : neverStartsLit (c :: cs) = true) :
    neverStartsLit cs = true := by
  cases cs with
  | nil => rfl
  | cons d ds =>
    simp only [neverStartsLit, Bool.and_eq_true] at h
    exact h.2

theorem replaceAll64_nil : replaceAll64 [] = [] := by
  rw [replaceAll64]

theorem replaceAll64_skip :
    ∀ (x : Str), neverStartsLit x = true →
      ∀ w, replaceAll64 (x ++ w) = x ++ replaceAll64 w := by
  intro x
  induction x with
  | nil => intro _ w; simp
  | cons c x' ih =>
    intro hx w
    have hl : lit64 (c :: (x' ++ w)) = false := by
      cases x' with
      | nil =>
        have hc : (c == '0') = false := by
          simpa [neverStartsLit] using hx
        exact lit64_false_of_head hc w
      | cons d x'' =>
        by_cases hcc : c = '0'
        · have hd : ((d == 'x') || (d == 'X')) = false := by
            simp only [neverStartsLit, Bool.and_eq_true] at hx
            have h1 := hx.1
            rw [hcc] at h1
            simpa using h1
          exact lit64_false_of_second hd _
        · exact lit64_false_of_head (beq_eq_false_iff_ne.mpr hcc) _
    have hx' : neverStartsLit x' = true := neverStartsLit_tail hx
    calc replaceAll64 ((c :: x') ++ w)
        = replaceAll64 (c :: (x' ++ w)) := by simp
      _ = c :: replaceAll64 (x' ++ w) := by rw [replaceAll64, hl]; simp
      _ = c :: (x' ++ replaceAll64 w) := by rw [ih hx' w]
      _ = (c :: x') ++ replaceAll64 w := by simp

theorem replaceAll64_id {x : Str} (hx : neverStartsLit x = true) : replaceAll64 x = x := by
  have h := replaceAll64_skip x hx []
  rw [List.append_nil, replaceAll64_nil, List.append_nil] at h
  exact h

theorem coordLit_parts {L : Str} (h : coordLit L = true) :
    lit64 L = true ∧ L.length = 66 := by
  simp only [coordLit, Bool.and_eq_true, beq_iff_eq] at h
  exact h

theorem coordLit_lit64_append {L : Str} (h : coordLit L = true) (w : Str) :
    lit64 (L ++ w) = true := by
  obtain ⟨h1, h2⟩ := coordLit_parts h
  obtain ⟨c, x, rest, rfl, hc, hx, hlen, hhex⟩ := lit64_dest h1
  have hr : rest.length = 64 := by
    simp only [List.length_cons] at h2
    omega
  have htake : rest.take 64 = rest := by
    rw [← hr]
    exact List.take_length rest
  have htake' : (rest ++ w).take 64 = rest := by
    rw [List.take_append_eq_append_take, htake, hr]
    simp
  simp only [List.cons_append, lit64, htake', Bool.and_eq_true, beq_iff_eq]
  rw [htake] at hlen hhex
  exact ⟨⟨⟨by rw [hc], hx⟩, hlen⟩, hhex⟩

theorem replaceAll64_match {L : Str} (hL : coordLit L = true) (w : Str) :
    replaceAll64 (L ++ w) =
      ("uint256(".data) ++ (L ++ ((")".data) ++ replaceAll64 w)) := by
  obtain ⟨h1, h2⟩ := coordLit_parts hL
  have hlit : lit64 (L ++ w) = true := coordLit_lit64_append hL w
  obtain ⟨c, x, rest, hLe, _, _, _, _⟩ := lit64_dest h1
  have htake : (L ++ w).take 66 = L := by
    rw [← h2, List.take_left]
  have hdrop : (L ++ w).drop 66 = w := by
    rw [← h2, List.drop_left]
  rw [hLe] at hlit htake hdrop ⊢
  simp only [List.cons_append] at hlit htake hdrop ⊢
  rw [replaceAll64, hlit]
  simp only [htake, hdrop]
  simp

theorem coordLit_allS {L : Str} (h : coordLit L = true) : L.all isSChar = true := by
  obtain ⟨h1, h2⟩ := coordLit_parts h
  obtain ⟨c, x, rest, rfl, hc, hx, _, hhex⟩ := lit64_dest h1
  have hr : rest.length = 64 := by
    simp only [List.length_cons] at h2
    omega
  have htake : rest.take 64 = rest := by
    rw [← hr]
    exact List.take_length rest
  rw [htake] at hhex
  simp only [List.all_cons, Bool.and_eq_true]
  refine ⟨?_, ?_, ?_⟩
  · rw [hc]; decide
  · rcases Bool.or_eq_true_iff.mp hx with hxx | hxx
    · rw [eq_of_beq hxx]; decide
    · rw [eq_of_beq hxx]; decide
  · rw [List.all_eq_true] at hhex ⊢
    intro d hd
    have := hhex d hd
    simp only [isSChar, this, Bool.true_or]

theorem coordLit_len66 {L : Str} (h : coordLit L = true) : 66 ≤ L.length := by
  rw [(coordLit_parts h).2]

theorem mapOptionAll_length {α β : Type} {f : α → Option β} :
    ∀ {l : List α} {l' : List β}, mapOptionAll f l = some l' → l'.length = l.length := by
  intro l
  induction l with
  | nil =>
    intro l' h
    simp only [mapOptionAll, Option.some.injEq] at h
    rw [← h]
    rfl
  | cons a as ih =>
    intro l' h
    simp only [mapOptionAll] at h
    cases hfa : f a with
    | none => rw [hfa] at h; simp at h
    | some b =>
      rw [hfa] at h
      cases hrest : mapOptionAll f as with
      | none => rw [hrest] at h; simp at h
      | some bs =>
        rw [hrest] at h
        simp only [Option.some.injEq] at h
        rw [← h]
        simp [ih hrest]

theorem mapOptionAll_none_of_mem {α β : Type} {f : α → Option β} :
    ∀ {l : List α} {a : α}, a ∈ l → f a = none → mapOptionAll f l = none := by
  intro l
  induction l with
  | nil => intro a ha _; simp at ha
  | cons b bs ih =>
    intro a ha hfa
    simp only [mapOptionAll]
    rcases List.mem_cons.mp ha with rfl | hmem
    · rw [hfa]
    · cases hfb : f b with
      | none => rfl
      | some c => rw [ih hmem hfa]

theorem into_bellman_ic_length {E : Engine} {vk : VerificationKey}
    {bvk : BellmanVerifyingKey} (h : vk.into_bellman E = some bvk) :
    bvk.ic.length = vk.gamma_abc.length := by
  rw [VerificationKey.into_bellman] at h
  cases h1 : serialization.to_g1 E vk.alpha <;> rw [h1] at h
  · simp at h
  cases h2 : serialization.to_g2 E vk.beta <;>
    simp only [Option.some_bind] at h <;> rw [h2] at h
  · simp at h
  cases h3 : serialization.to_g2 E vk.gamma <;>
    simp only [Option.some_bind] at h <;> rw [h3] at h
  · simp at h
  cases h4 : serialization.to_g2 E vk.delta <;>
    simp only [Option.some_bind] at h <;> rw [h4] at h
  · simp at h
  cases h5 : mapOptionAll (serialization.to_g1 E) vk.gamma_abc <;>
    simp only [Option.some_bind] at h <;> rw [h5] at h
  · simp at h
  simp only [Option.some_bind, Option.some.injEq] at h
  rw [← h]
  exact mapOptionAll_length h5

/-- **C1.** `verify` returns the literal boolean `false` only when the key
and proof points convert successfully, every public-input string parses
successfully as a field element (after the `0x`-prefix trim, in base 16),
and the engine's pairing check then fails; and whenever any public-input
string fails to parse — or any key/proof point conversion fails — the call
aborts fatally (`none`) instead of returning `false`. -/
theorem verify_false_characterization (E : Engine) (vk : VerificationKey) (pf : Proof) :
    (G16.verify E vk pf = some false →
      ∃ bvk bproof ins,
        vk.into_bellman E = some bvk ∧
        pf.proof.into_bellman E = some bproof ∧
        mapOptionAll (parsePublicInput E) pf.inputs = some ins ∧
        E.pairingCheck (prepare_verifying_key bvk) bproof ins = false) ∧
    ((∃ s ∈ pf.inputs, parsePublicInput E s = none) → G16.verify E vk pf = none) ∧
    (vk.into_bellman E = none → G16.verify E vk pf = none) ∧
    (pf.proof.into_bellman E = none → G16.verify E vk pf = none) := by
  refine ⟨?_, ?_, ?_, ?_⟩
  · intro h
    rw [G16.verify] at h
    cases h1 : vk.into_bellman E <;> rw [h1] at h
    · simp at h
    · simp only [Option.some_bind] at h
      cases h2 : pf.proof.into_bellman E <;> rw [h2] at h
      · simp at h
      · simp only [Option.some_bind] at h
        cases h3 : mapOptionAll (parsePublicInput E) pf.inputs <;> rw [h3] at h
        · simp at h
        · simp only [Option.some_bind] at h
          rename_i bvk bproof ins
          rw [verify_proof] at h
          by_cases hc : ins.length + 1 = (prepare_verifying_key bvk).ic.length
          · rw [if_pos hc] at h
            simp only [Option.some.injEq] at h
            exact ⟨bvk, bproof, ins, rfl, rfl, rfl, h⟩
          · rw [if_neg hc] at h
            simp at h
  · rintro ⟨s, hs, hps⟩
    rw [G16.verify]
    cases h1 : vk.into_bellman E
    · rfl
    · simp only [Option.some_bind]
      cases h2 : pf.proof.into_bellman E
      · rfl
      · simp only [Option.some_bind]
        rw [mapOptionAll_none_of_mem hs hps]
        rfl
  · intro h
    rw [G16.verify, h]
    rfl
  · intro h
    rw [G16.verify, h]
    cases h1 : vk.into_bellman E <;> rfl

/-- Witness for C1: a concrete envelope whose single public-input string
`"xyz"` is not valid hex, on which `verify` aborts (`none`). -/
theorem verify_false_characterization_witness :
    G16.verify Etriv exVkW exPfBad = none :=
  (verify_false_characterization Etriv exVkW exPfBad).2.1
    ⟨("xyz").data, by decide, by decide⟩

/-- **C2.** Whenever the number of public-input strings differs from
`gamma_abc.length - 1`, `verify` rejects the envelope: the call aborts
fatally (`none`) — in particular it never returns `true`.  (The count
check `inputs + 1 = ic.length` is performed by the engine's
`verify_proof`, whose error the caller unwraps.) -/
theorem verify_input_count_mismatch_fatal (E : Engine) (vk : VerificationKey)
    (pf : Proof) (h : pf.inputs.length ≠ vk.gamma_abc.length - 1) :
    G16.verify E vk pf = none := by
  rw [G16.verify]
  cases h1 : vk.into_bellman E
  · rfl
  · rename_i bvk
    simp only [Option.some_bind]
    cases h2 : pf.proof.into_bellman E
    · rfl
    · rename_i bproof
      simp only [Option.some_bind]
      cases h3 : mapOptionAll (parsePublicInput E) pf.inputs
      · rfl
      · rename_i ins
        simp only [Option.some_bind]
        rw [verify_proof]
        have hic : bvk.ic.length = vk.gamma_abc.length := into_bellman_ic_length h1
        have hin : ins.length = pf.inputs.length := mapOptionAll_length h3
        have hne : ¬ ins.length + 1 = (prepare_verifying_key bvk).ic.length := by
          rw [prepare_verifying_key, hic, hin]
          omega
        rw [if_neg hne]

/-- Witness for C2: one public input against a key with `gamma_abc` of
length 1 (zero expected inputs); `verify` aborts. -/
theorem verify_input_count_mismatch_fatal_witness :
    G16.verify Etriv exVkW exPfMis = none :=
  verify_input_count_mismatch_fatal Etriv exVkW exPfMis (by decide)

/-- **C3.** `to_g2` swaps each portable coordinate's limb order when
building the backend extension-field elements: whenever it succeeds, the
backend `c0` limb of x (resp. y) is parsed from the *second* portable
limb, and the backend `c1` limb from the *first*, for both coordinates,
the point having passed the curve check unchanged. -/
theorem to_g2_swaps_limb_order (E : Engine) (g2 : G2Affine) (p : BellmanG2)
    (h : serialization.to_g2 E g2 = some p) :
    from_hex E.q ((g2.1).2) = some p.1.c0 ∧ from_hex E.q ((g2.1).1) = some p.1.c1 ∧
    from_hex E.q ((g2.2).2) = some p.2.c0 ∧ from_hex E.q ((g2.2).1) = some p.2.c1 ∧
    E.onCurveG2 p.1 p.2 = true := by
  rw [serialization.to_g2] at h
  cases hx : new_fq2 E ((g2.1).2) ((g2.1).1) <;> rw [hx] at h
  · simp at h
  · simp only [Option.some_bind] at h
    cases hy : new_fq2 E ((g2.2).2) ((g2.2).1) <;> rw [hy] at h
    · simp at h
    · simp only [Option.some_bind] at h
      rename_i x y
      by_cases hc : E.onCurveG2 x y
      · rw [if_pos hc] at h
        simp only [Option.some.injEq] at h
        rw [new_fq2] at hx hy
        cases hx1 : from_hex E.q ((g2.1).2) <;> rw [hx1] at hx
        · simp at hx
        · simp only [Option.some_bind] at hx
          cases hx2 : from_hex E.q ((g2.1).1) <;> rw [hx2] at hx
          · simp at hx
          · simp only [Option.some_bind] at hx
            cases hy1 : from_hex E.q ((g2.2).2) <;> rw [hy1] at hy
            · simp at hy
            · simp only [Option.some_bind] at hy
              cases hy2 : from_hex E.q ((g2.2).1) <;> rw [hy2] at hy
              · simp at hy
              · simp only [Option.some_bind, Option.some.injEq] at hx hy
                subst hx
                subst hy
                rw [← h]
                exact ⟨rfl, rfl, rfl, rfl, hc⟩
      · rw [if_neg hc] at h
        simp at h

/-- Witness for C3: a concrete portable point with distinct limbs; the
backend x-coordinate is `⟨7, 6⟩` — second limb first. -/
theorem to_g2_swaps_limb_order_witness :
    from_hex Etriv.q (("0x07").data) = some 7 ∧
    from_hex Etriv.q (("0x06").data) = some 6 ∧
    from_hex Etriv.q (("0x09").data) = some 9 ∧
    from_hex Etriv.q (("0x08").data) = some 8 ∧
    Etriv.onCurveG2 ⟨7, 6⟩ ⟨9, 8⟩ = true :=
  to_g2_swaps_limb_order Etriv exG2 (⟨7, 6⟩, ⟨9, 8⟩) (by decide)

/-- **C10.** The result of `verify` does not depend on the envelope's raw
serialized-proof hex string: two envelopes agreeing on points and public
inputs produce the same result whatever their `raw` fields. -/
theorem verify_ignores_raw_field (E : Engine) (vk : VerificationKey)
    (pts : ProofPoints) (ins : List Str) (raw₁ raw₂ : Str) :
    G16.verify E vk ⟨pts, ins, raw₁⟩ = G16.verify E vk ⟨pts, ins, raw₂⟩ := rfl

/-- **C4.** `export_solidity_verifier` is a deterministic pure function of
its two arguments: the embedding renders it as a total function of
`(vk, abi)` with no other inputs, so equal arguments give byte-identical
output. -/
theorem export_solidity_verifier_deterministic (vk₁ vk₂ : VerificationKey)
    (abi₁ abi₂ : SolidityAbi) (h1 : vk₁ = vk₂) (h2 : abi₁ = abi₂) :
    G16.export_solidity_verifier vk₁ abi₁ = G16.export_solidity_verifier vk₂ abi₂ := by
  rw [h1, h2]

/-- Witness for C4 at a concrete key and dialect. -/
theorem export_solidity_verifier_deterministic_witness :
    G16.export_solidity_verifier exVkW SolidityAbi.V1 =
      G16.export_solidity_verifier exVkW SolidityAbi.V1 :=
  export_solidity_verifier_deterministic exVkW exVkW SolidityAbi.V1 SolidityAbi.V1
    rfl rfl

theorem hexVal_hexDigitChar : ∀ m < 16, hexVal (hexDigitChar m) = m := by decide

theorem isHexDigitB_hexDigitChar : ∀ m < 16, isHexDigitB (hexDigitChar m) = true := by
  decide

theorem toHexFixed_length : ∀ (k v : Nat), (toHexFixed k v).length = k := by
  intro k
  induction k with
  | zero => intro v; rfl
  | succ k ih =>
    intro v
    simp only [toHexFixed, List.length_append, List.length_cons, List.length_nil, ih]

theorem toHexFixed_all_hex : ∀ (k v : Nat), (toHexFixed k v).all isHexDigitB = true := by
  intro k
  induction k with
  | zero => intro v; rfl
  | succ k ih =>
    intro v
    simp only [toHexFixed, List.all_append, List.all_cons, List.all_nil, ih,
      Bool.true_and, Bool.and_true]
    exact isHexDigitB_hexDigitChar (v % 16) (Nat.mod_lt v (by omega))

theorem parseHexDigits_append_digit (ds : Str) (c : Char) :
    parseHexDigits (ds ++ [c]) = parseHexDigits ds * 16 + hexVal c := by
  simp [parseHexDigits, List.foldl_append]

theorem parseHexDigits_toHexFixed :
    ∀ (k v : Nat), v < 16 ^ k → parseHexDigits (toHexFixed k v) = v := by
  intro k
  induction k with
  | zero =>
    intro v hv
    have : v = 0 := by simpa using hv
    simp [this, parseHexDigits, toHexFixed]
  | succ k ih =>
    intro v hv
    have hdiv : v / 16 < 16 ^ k := by
      rw [Nat.div_lt_iff_lt_mul (by omega)]
      calc v < 16 ^ (k + 1) := hv
        _ = 16 ^ k * 16 := by rw [Nat.pow_succ]
    simp only [toHexFixed, parseHexDigits_append_digit, ih (v / 16) hdiv,
      hexVal_hexDigitChar (v % 16) (Nat.mod_lt v (by omega))]
    omega

theorem from_hex_render_core {q v : Nat} {ds : Str} (hne : ds ≠ [])
    (hall : ds.all isHexDigitB = true) (hparse : parseHexDigits ds = v)
    (h1 : v < q) : from_hex q ('0' :: 'x' :: ds) = some v := by
  have hpre : isPre ("0x".data) ('0' :: 'x' :: ds) = true :=
    isPre_prefix_iff.mpr ⟨ds, rfl⟩
  rw [from_hex, if_pos hpre]
  have hdrop : ('0' :: 'x' :: ds).drop 2 = ds := rfl
  rw [hdrop, from_hexCore, if_pos ⟨hne, hall⟩, hparse, if_pos h1]

theorem from_hex_render {q v : Nat} (h1 : v < q) (h2 : q ≤ 16 ^ 64) :
    from_hex q ('0' :: 'x' :: toHexFixed 64 v) = some v :=
  from_hex_render_core
    (by
      intro hh
      have hl := toHexFixed_length 64 v
      rw [hh] at hl
      simp at hl)
    (toHexFixed_all_hex 64 v)
    (parseHexDigits_toHexFixed 64 v (lt_of_lt_of_le h1 h2))
    h1

/-- **C9.** Converting a backend G2 point to the portable representation
and back is the identity: the two limb-order swaps cancel.  Hypotheses:
the point passes the engine's curve check (it was produced by the pairing
engine), its limbs are canonical field values (`< q`), and the base-field
modulus fits in 64 hex digits. -/
theorem to_g2_from_g2_roundtrip (E : Engine) (p : BellmanG2)
    (hq : E.q ≤ 16 ^ 64) (hc : E.onCurveG2 p.1 p.2 = true)
    (h00 : p.1.c0 < E.q) (h01 : p.1.c1 < E.q)
    (h10 : p.2.c0 < E.q) (h11 : p.2.c1 < E.q) :
    serialization.to_g2 E (parse_g2 p) = some p := by
  rw [serialization.to_g2, parse_g2]
  simp only [new_fq2]
  rw [from_hex_render h00 hq, from_hex_render h01 hq, from_hex_render h10 hq,
    from_hex_render h11 hq]
  simp only [Option.some_bind]
  have e1 : (⟨p.1.c0, p.1.c1⟩ : Fq2) = p.1 := rfl
  have e2 : (⟨p.2.c0, p.2.c1⟩ : Fq2) = p.2 := rfl
  rw [e1, e2, if_pos hc]

/-- Witness for C9: a concrete point with distinct limbs round-trips. -/
theorem to_g2_from_g2_roundtrip_witness :
    serialization.to_g2 Etriv (parse_g2 (⟨3, 5⟩, ⟨7, 11⟩)) = some (⟨3, 5⟩, ⟨7, 11⟩) :=
  to_g2_from_g2_roundtrip Etriv (⟨3, 5⟩, ⟨7, 11⟩) (by norm_num [Etriv]) rfl
    (by norm_num [Etriv]) (by norm_num [Etriv]) (by norm_num [Etriv])
    (by norm_num [Etriv])

theorem gammaAbcRepeatTextAux_join :
    ∀ (l : List G1Affine) (i count : Nat), count = i + l.length →
      gammaAbcRepeatTextAux count i l =
        joinWithSep gammaAbcSep ((List.enumFrom i l).map fun p => gammaAbcStmt p.1 p.2) := by
  intro l
  induction l with
  | nil => intro i count _; rfl
  | cons g gs ih =>
    intro i count h
    cases gs with
    | nil =>
      have hn : ¬ i < count - 1 := by
        simp only [List.length_cons, List.length_nil] at h
        omega
      simp only [gammaAbcRepeatTextAux, List.enumFrom, List.map, joinWithSep, if_neg hn]
      simp
    | cons g' gs' =>
      have hlt : i < count - 1 := by
        simp only [List.length_cons] at h
        omega
      have hrec := ih (i + 1) count (by simp only [List.length_cons] at h ⊢; omega)
      simp only [gammaAbcRepeatTextAux, if_pos hlt] at hrec ⊢
      rw [hrec]
      simp only [List.enumFrom, List.map, joinWithSep]
      simp [List.append_assoc, gammaAbcSep]

/-- **C7 (amended).** The `gamma_abc` block text consists of one generated
assignment statement per entry of `gamma_abc` — so a key with exactly one
public input (`gamma_abc` of length 2) produces exactly *two* statements,
not one — in entry order, joined by the newline separator with no trailing
separator after the last statement. -/
theorem gammaAbcRepeatText_one_stmt_per_entry (l : List G1Affine) :
    gammaAbcRepeatText l =
      joinWithSep gammaAbcSep ((l.enum).map fun p => gammaAbcStmt p.1 p.2) ∧
    ((l.enum).map fun p => gammaAbcStmt p.1 p.2).length = l.length := by
  constructor
  · rw [gammaAbcRepeatText]
    have h := gammaAbcRepeatTextAux_join l 0 l.length (by omega)
    simpa [List.enum] using h
  · simp

/-- **C7 counterexample.** A key with exactly one public input
(`gamma_abc` of length 2) produces two assignment statements, not one:
the statement fragment `] = Pairing.G1Point(` occurs twice in the
generated block. -/
theorem gammaAbc_one_public_input_two_stmts :
    exGammaAbcTwo.length = 2 ∧
    occCount stmtMarker (gammaAbcRepeatText exGammaAbcTwo) = 2 ∧
    ¬ occCount stmtMarker (gammaAbcRepeatText exGammaAbcTwo) = 1 := by
  refine ⟨rfl, ?_, ?_⟩ <;> decide

/-- **C8.** (a) The assembled output is the concatenation of the fixed
G2-addition library text, the ABI-selected pairing-library text and the
substituted template put through the final `uint256` pass, in that order.
(b) The final pass rewrites every 64-hex-digit literal (`0x`/`0X`,
case-insensitive digits) to `uint256(<literal>)`: whenever such a literal
follows a prefix in which no such literal starts, the output keeps the
prefix unchanged, wraps the literal, and continues scanning after it. -/
theorem export_assembly_and_uint256_rewrite :
    (∀ (vk : VerificationKey) (abi : SolidityAbi),
      G16.export_solidity_verifier vk abi =
        SOLIDITY_G2_ADDITION_LIB ++ pairingLibFor abi ++
          replaceAll64 (substitutePhase vk (templateFor abi))) ∧
    (∀ (u lit v : Str), coordLit lit = true → noMatchIn u (lit ++ v) = true →
      replaceAll64 (u ++ (lit ++ v)) =
        u ++ (("uint256(".data) ++ (lit ++ ((")".data) ++ replaceAll64 v)))) := by
  constructor
  · intro vk abi
    rfl
  · intro u lit v hlit hno
    induction u with
    | nil => simpa using replaceAll64_match hlit v
    | cons c u' ih =>
      simp only [noMatchIn, Bool.and_eq_true, Bool.not_eq_true'] at hno
      have h1 : lit64 (c :: (u' ++ (lit ++ v))) = false := by
        have := hno.1
        simpa using this
      calc replaceAll64 ((c :: u') ++ (lit ++ v))
          = replaceAll64 (c :: (u' ++ (lit ++ v))) := by simp
        _ = c :: replaceAll64 (u' ++ (lit ++ v)) := by rw [replaceAll64, h1]; simp
        _ = c :: (u' ++ (("uint256(".data) ++ (lit ++ ((")".data) ++ replaceAll64 v)))) := by
            rw [ih hno.2]
        _ = (c :: u') ++ (("uint256(".data) ++ (lit ++ ((")".data) ++ replaceAll64 v))) := by
            simp

/-- Witness for C8(b): a concrete prefix, an upper-case `0X` literal and a
concrete remainder. -/
theorem export_assembly_and_uint256_rewrite_witness :
    replaceAll64 (("Q".data) ++ (canonCoordX ++ ("z".data))) =
      ("Q".data) ++ (("uint256(".data) ++ (canonCoordX ++ ((")".data) ++
        replaceAll64 ("z".data)))) :=
  export_assembly_and_uint256_rewrite.2 ("Q".data) canonCoordX ("z".data)
    (by decide) (by decide)

theorem occursB_iff : ∀ {pat s : Str}, occursB pat s = true ↔ pat <:+: s := by
  intro pat s
  induction s with
  | nil =>
    simp only [occursB]
    constructor
    · intro h
      cases pat with
      | nil => exact ⟨[], [], rfl⟩
      | cons p ps => simp [isPre] at h
    · intro h
      cases pat with
      | nil => rfl
      | cons p ps =>
        obtain ⟨u, v, huv⟩ := h
        simp at huv
  | cons c cs ih =>
    simp only [occursB, Bool.or_eq_true, ih, isPre_prefix_iff]
    constructor
    · rintro (h | h)
      · exact h.isInfix
      · exact infix_append_left [c] h
    · intro h
      rcases infix_cons_split h with h | h
      · exact Or.inl h
      · exact Or.inr h

theorem not_infix_of_occursB {pat s : Str} (h : occursB pat s = false) :
    ¬ pat <:+: s := by
  intro hin
  rw [occursB_iff.mpr hin] at h
  simp at h

theorem infix_of_occursB {pat s : Str} (h : occursB pat s = true) : pat <:+: s :=
  occursB_iff.mp h

theorem replaceVk_match_alpha (repl v : Str) :
    replaceVk repl (vkAlphaPat ++ v) = repl ++ v :=
  replaceVk_match repl v (vkMatchLen_alpha v) (by decide)

theorem replaceVk_match_beta (repl v : Str) :
    replaceVk repl (vkBetaPat ++ v) = repl ++ v :=
  replaceVk_match repl v (vkMatchLen_beta v) (by decide)

theorem replaceVk_match_gamma (repl v : Str) :
    replaceVk repl (vkGammaPat ++ v) = repl ++ v :=
  replaceVk_match repl v (vkMatchLen_gamma v) (by decide)

theorem replaceVk_match_delta (repl v : Str) :
    replaceVk repl (vkDeltaPat ++ v) = repl ++ v :=
  replaceVk_match repl v (vkMatchLen_delta v) (by decide)

theorem noLtStr_append (a b : Str) : noLtStr (a ++ b) = (noLtStr a && noLtStr b) := by
  simp [noLtStr, List.all_append]

theorem noLtStr_g1Text {g : G1Affine} (h1 : noLtStr g.1 = true)
    (h2 : noLtStr g.2 = true) : noLtStr (G1Affine.toText g) = true := by
  rw [G1Affine.toText]
  simp only [noLtStr_append, h1, h2]
  decide

theorem noLtStr_g2Text {g : G2Affine} (h1 : noLtStr (g.1).1 = true)
    (h2 : noLtStr (g.1).2 = true) (h3 : noLtStr (g.2).1 = true)
    (h4 : noLtStr (g.2).2 = true) : noLtStr (G2Affine.toText g) = true := by
  rw [G2Affine.toText]
  simp only [noLtStr_append, h1, h2, h3, h4]
  decide

theorem vkSubstPhase_decomp_V1 (vk : VerificationKey) (h : vkNoLt vk = true) :
    vkSubstPhase vk CONTRACT_TEMPLATE =
      tV1s1 ++ (G1Affine.toText vk.alpha ++ (tV1s2 ++ (G2Affine.toText vk.beta ++
        (tV1s3 ++ (G2Affine.toText vk.gamma ++ (tV1s4 ++ (G2Affine.toText vk.delta ++
          tV1s5))))))) := by
  simp only [vkNoLt, Bool.and_eq_true] at h
  obtain ⟨⟨⟨⟨⟨⟨⟨⟨⟨⟨⟨⟨⟨hA1, hA2⟩, hB1⟩, hB2⟩, hB3⟩, hB4⟩, hC1⟩, hC2⟩, hC3⟩,
    hC4⟩, hD1⟩, hD2⟩, hD3⟩, hD4⟩ := h
  have hs1 := noLtStr_spec (show noLtStr tV1s1 = true by decide)
  have hs2 := noLtStr_spec (show noLtStr tV1s2 = true by decide)
  have hs3 := noLtStr_spec (show noLtStr tV1s3 = true by decide)
  have hs4 := noLtStr_spec (show noLtStr tV1s4 = true by decide)
  have haT := noLtStr_spec (noLtStr_g1Text hA1 hA2)
  have hbT := noLtStr_spec (noLtStr_g2Text hB1 hB2 hB3 hB4)
  have hcT := noLtStr_spec (noLtStr_g2Text hC1 hC2 hC3 hC4)
  rw [vkSubstPhase, CONTRACT_TEMPLATE]
  rw [replaceVk_skip (G1Affine.toText vk.alpha) tV1s1 hs1, replaceVk_match_alpha]
  rw [replaceVk_skip (G2Affine.toText vk.beta) tV1s1 hs1,
    replaceVk_skip (G2Affine.toText vk.beta) (G1Affine.toText vk.alpha) haT,
    replaceVk_skip (G2Affine.toText vk.beta) tV1s2 hs2, replaceVk_match_beta]
  rw [replaceVk_skip (G2Affine.toText vk.gamma) tV1s1 hs1,
    replaceVk_skip (G2Affine.toText vk.gamma) (G1Affine.toText vk.alpha) haT,
    replaceVk_skip (G2Affine.toText vk.gamma) tV1s2 hs2,
    replaceVk_skip (G2Affine.toText vk.gamma) (G2Affine.toText vk.beta) hbT,
    replaceVk_skip (G2Affine.toText vk.gamma) tV1s3 hs3, replaceVk_match_gamma]
  rw [replaceVk_skip (G2Affine.toText vk.delta) tV1s1 hs1,
    replaceVk_skip (G2Affine.toText vk.delta) (G1Affine.toText vk.alpha) haT,
    replaceVk_skip (G2Affine.toText vk.delta) tV1s2 hs2,
    replaceVk_skip (G2Affine.toText vk.delta) (G2Affine.toText vk.beta) hbT,
    replaceVk_skip (G2Affine.toText vk.delta) tV1s3 hs3,
    replaceVk_skip (G2Affine.toText vk.delta) (G2Affine.toText vk.gamma) hcT,
    replaceVk_skip (G2Affine.toText vk.delta) tV1s4 hs4, replaceVk_match_delta]

theorem vkSubstPhase_decomp_V2 (vk : VerificationKey) (h : vkNoLt vk = true) :
    vkSubstPhase vk CONTRACT_TEMPLATE_V2 =
      tV2s1 ++ (G1Affine.toText vk.alpha ++ (tV2s2 ++ (G2Affine.toText vk.beta ++
        (tV2s3 ++ (G2Affine.toText vk.gamma ++ (tV2s4 ++ (G2Affine.toText vk.delta ++
          tV2s5))))))) := by
  simp only [vkNoLt, Bool.and_eq_true] at h
  obtain ⟨⟨⟨⟨⟨⟨⟨⟨⟨⟨⟨⟨⟨hA1, hA2⟩, hB1⟩, hB2⟩, hB3⟩, hB4⟩, hC1⟩, hC2⟩, hC3⟩,
    hC4⟩, hD1⟩, hD2⟩, hD3⟩, hD4⟩ := h
  have hs1 := noLtStr_spec (show noLtStr tV2s1 = true by decide)
  have hs2 := noLtStr_spec (show noLtStr tV2s2 = true by decide)
  have hs3 := noLtStr_spec (show noLtStr tV2s3 = true by decide)
  have hs4 := noLtStr_spec (show noLtStr tV2s4 = true by decide)
  have haT := noLtStr_spec (noLtStr_g1Text hA1 hA2)
  have hbT := noLtStr_spec (noLtStr_g2Text hB1 hB2 hB3 hB4)
  have hcT := noLtStr_spec (noLtStr_g2Text hC1 hC2 hC3 hC4)
  rw [vkSubstPhase, CONTRACT_TEMPLATE_V2]
  rw [replaceVk_skip (G1Affine.toText vk.alpha) tV2s1 hs1, replaceVk_match_alpha]
  rw [replaceVk_skip (G2Affine.toText vk.beta) tV2s1 hs1,
    replaceVk_skip (G2Affine.toText vk.beta) (G1Affine.toText vk.alpha) haT,
    replaceVk_skip (G2Affine.toText vk.beta) tV2s2 hs2, replaceVk_match_beta]
  rw [replaceVk_skip (G2Affine.toText vk.gamma) tV2s1 hs1,
    replaceVk_skip (G2Affine.toText vk.gamma) (G1Affine.toText vk.alpha) haT,
    replaceVk_skip (G2Affine.toText vk.gamma) tV2s2 hs2,
    replaceVk_skip (G2Affine.toText vk.gamma) (G2Affine.toText vk.beta) hbT,
    replaceVk_skip (G2Affine.toText vk.gamma) tV2s3 hs3, replaceVk_match_gamma]
  rw [replaceVk_skip (G2Affine.toText vk.delta) tV2s1 hs1,
    replaceVk_skip (G2Affine.toText vk.delta) (G1Affine.toText vk.alpha) haT,
    replaceVk_skip (G2Affine.toText vk.delta) tV2s2 hs2,
    replaceVk_skip (G2Affine.toText vk.delta) (G2Affine.toText vk.beta) hbT,
    replaceVk_skip (G2Affine.toText vk.delta) tV2s3 hs3,
    replaceVk_skip (G2Affine.toText vk.delta) (G2Affine.toText vk.gamma) hcT,
    replaceVk_skip (G2Affine.toText vk.delta) tV2s4 hs4, replaceVk_match_delta]

/-- **C5.** Each template contains the four generic verification-key
placeholders in declaration order — it splits as
`s1 ++ <%vk_alpha%> ++ s2 ++ <%vk_beta%> ++ s3 ++ <%vk_gamma%> ++ s4 ++
<%vk_delta%> ++ s5` — and the four positional, first-match substitutions
of `export_solidity_verifier` put alpha's text at the first generic
placeholder, beta's at the second, gamma's at the third and delta's at the
fourth (for any key whose coordinate strings contain no `<`, as every hex
coordinate does). -/
theorem export_vk_placeholders_positional :
    (CONTRACT_TEMPLATE =
      tV1s1 ++ (vkAlphaPat ++ (tV1s2 ++ (vkBetaPat ++ (tV1s3 ++ (vkGammaPat ++
        (tV1s4 ++ (vkDeltaPat ++ tV1s5))))))) ∧
     CONTRACT_TEMPLATE_V2 =
      tV2s1 ++ (vkAlphaPat ++ (tV2s2 ++ (vkBetaPat ++ (tV2s3 ++ (vkGammaPat ++
        (tV2s4 ++ (vkDeltaPat ++ tV2s5)))))))) ∧
    (∀ vk : VerificationKey, vkNoLt vk = true →
      vkSubstPhase vk CONTRACT_TEMPLATE =
        tV1s1 ++ (G1Affine.toText vk.alpha ++ (tV1s2 ++ (G2Affine.toText vk.beta ++
          (tV1s3 ++ (G2Affine.toText vk.gamma ++ (tV1s4 ++
            (G2Affine.toText vk.delta ++ tV1s5))))))) ∧
      vkSubstPhase vk CONTRACT_TEMPLATE_V2 =
        tV2s1 ++ (G1Affine.toText vk.alpha ++ (tV2s2 ++ (G2Affine.toText vk.beta ++
          (tV2s3 ++ (G2Affine.toText vk.gamma ++ (tV2s4 ++
            (G2Affine.toText vk.delta ++ tV2s5)))))))) :=
  ⟨⟨rfl, rfl⟩, fun vk h => ⟨vkSubstPhase_decomp_V1 vk h, vkSubstPhase_decomp_V2 vk h⟩⟩

/-- Witness for C5 at a concrete hex-coordinate key. -/
theorem export_vk_placeholders_positional_witness :
    vkSubstPhase exVkW CONTRACT_TEMPLATE =
      tV1s1 ++ (G1Affine.toText exVkW.alpha ++ (tV1s2 ++ (G2Affine.toText exVkW.beta ++
        (tV1s3 ++ (G2Affine.toText exVkW.gamma ++ (tV1s4 ++
          (G2Affine.toText exVkW.delta ++ tV1s5))))))) ∧
    vkSubstPhase exVkW CONTRACT_TEMPLATE_V2 =
      tV2s1 ++ (G1Affine.toText exVkW.alpha ++ (tV2s2 ++ (G2Affine.toText exVkW.beta ++
        (tV2s3 ++ (G2Affine.toText exVkW.gamma ++ (tV2s4 ++
          (G2Affine.toText exVkW.delta ++ tV2s5))))))) :=
  export_vk_placeholders_positional.2 exVkW (by decide)

theorem noLtStr_of_coordLit {s : Str} (h : coordLit s = true) : noLtStr s = true := by
  have hall := coordLit_allS h
  simp only [noLtStr, List.all_eq_true]
  intro c hc
  have hcS := all_schar_mem hall hc
  have hne : c ≠ '<' := by
    intro he
    rw [he] at hcS
    exact absurd hcS (by decide)
  simp [hne]

theorem vkNoLt_of_canon {vk : VerificationKey} (h : vkCoordsCanon vk = true) :
    vkNoLt vk = true := by
  simp only [vkCoordsCanon, Bool.and_eq_true] at h
  obtain ⟨⟨⟨⟨⟨⟨⟨⟨⟨⟨⟨⟨⟨hA1, hA2⟩, hB1⟩, hB2⟩, hB3⟩, hB4⟩, hC1⟩, hC2⟩, hC3⟩,
    hC4⟩, hD1⟩, hD2⟩, hD3⟩, hD4⟩ := h
  simp only [vkNoLt, Bool.and_eq_true]
  exact ⟨⟨⟨⟨⟨⟨⟨⟨⟨⟨⟨⟨⟨noLtStr_of_coordLit hA1, noLtStr_of_coordLit hA2⟩,
    noLtStr_of_coordLit hB1⟩, noLtStr_of_coordLit hB2⟩, noLtStr_of_coordLit hB3⟩,
    noLtStr_of_coordLit hB4⟩, noLtStr_of_coordLit hC1⟩, noLtStr_of_coordLit hC2⟩,
    noLtStr_of_coordLit hC3⟩, noLtStr_of_coordLit hC4⟩, noLtStr_of_coordLit hD1⟩,
    noLtStr_of_coordLit hD2⟩, noLtStr_of_coordLit hD3⟩, noLtStr_of_coordLit hD4⟩

theorem joinStdV1 (vk : VerificationKey) :
    tV1s1 ++ (G1Affine.toText vk.alpha ++ (tV1s2 ++ (G2Affine.toText vk.beta ++
      (tV1s3 ++ (G2Affine.toText vk.gamma ++ (tV1s4 ++ (G2Affine.toText vk.delta ++
        tV1s5))))))) =
    JoinPieces (stdPairsV1 vk) (("]".data) ++ tV1s5) := by
  simp only [stdPairsV1, JoinPieces, G1Affine.toText, G2Affine.toText,
    List.append_assoc]

theorem joinStdV2 (vk : VerificationKey) :
    tV2s1 ++ (G1Affine.toText vk.alpha ++ (tV2s2 ++ (G2Affine.toText vk.beta ++
      (tV2s3 ++ (G2Affine.toText vk.gamma ++ (tV2s4 ++ (G2Affine.toText vk.delta ++
        tV2s5))))))) =
    JoinPieces (stdPairsV2 vk) (("]".data) ++ tV2s5) := by
  simp only [stdPairsV2, JoinPieces, G1Affine.toText, G2Affine.toText,
    List.append_assoc]

theorem stdPairsV1_cond (pat : Str) (hp : patStdOKV1 pat = true)
    (vk : VerificationKey) (hc : vkCoordsCanon vk = true) :
    ∀ q ∈ stdPairsV1 vk,
      (sufPre pat q.1 = true ∧ ¬ pat <:+: q.1) ∧ q.2.all isSChar = true := by
  simp only [patStdOKV1, Bool.and_eq_true, Bool.not_eq_true'] at hp
  obtain ⟨⟨⟨⟨⟨⟨⟨⟨⟨⟨⟨h1, h1o⟩, h2⟩, h2o⟩, h3⟩, h3o⟩, h4⟩, h4o⟩, h5⟩, h5o⟩,
    h6⟩, h6o⟩ := hp
  simp only [vkCoordsCanon, Bool.and_eq_true] at hc
  obtain ⟨⟨⟨⟨⟨⟨⟨⟨⟨⟨⟨⟨⟨hA1, hA2⟩, hB1⟩, hB2⟩, hB3⟩, hB4⟩, hC1⟩, hC2⟩, hC3⟩,
    hC4⟩, hD1⟩, hD2⟩, hD3⟩, hD4⟩ := hc
  intro q hq
  simp only [stdPairsV1, List.mem_cons, List.not_mem_nil, or_false] at hq
  rcases hq with rfl | rfl | rfl | rfl | rfl | rfl | rfl | rfl | rfl | rfl |
    rfl | rfl | rfl | rfl
  · exact ⟨⟨h1, not_infix_of_occursB h1o⟩, coordLit_allS hA1⟩
  · exact ⟨⟨h5, not_infix_of_occursB h5o⟩, coordLit_allS hA2⟩
  · exact ⟨⟨h2, not_infix_of_occursB h2o⟩, coordLit_allS hB1⟩
  · exact ⟨⟨h5, not_infix_of_occursB h5o⟩, coordLit_allS hB2⟩
  · exact ⟨⟨h6, not_infix_of_occursB h6o⟩, coordLit_allS hB3⟩
  · exact ⟨⟨h5, not_infix_of_occursB h5o⟩, coordLit_allS hB4⟩
  · exact ⟨⟨h3, not_infix_of_occursB h3o⟩, coordLit_allS hC1⟩
  · exact ⟨⟨h5, not_infix_of_occursB h5o⟩, coordLit_allS hC2⟩
  · exact ⟨⟨h6, not_infix_of_occursB h6o⟩, coordLit_allS hC3⟩
  · exact ⟨⟨h5, not_infix_of_occursB h5o⟩, coordLit_allS hC4⟩
  · exact ⟨⟨h4, not_infix_of_occursB h4o⟩, coordLit_allS hD1⟩
  · exact ⟨⟨h5, not_infix_of_occursB h5o⟩, coordLit_allS hD2⟩
  · exact ⟨⟨h6, not_infix_of_occursB h6o⟩, coordLit_allS hD3⟩
  · exact ⟨⟨h5, not_infix_of_occursB h5o⟩, coordLit_allS hD4⟩

theorem stdPairsV2_cond (pat : Str) (hp : patStdOKV2 pat = true)
    (vk : VerificationKey) (hc : vkCoordsCanon vk = true) :
    ∀ q ∈ stdPairsV2 vk,
      (sufPre pat q.1 = true ∧ ¬ pat <:+: q.1) ∧ q.2.all isSChar = true := by
  simp only [patStdOKV2, Bool.and_eq_true, Bool.not_eq_true'] at hp
  obtain ⟨⟨⟨⟨⟨⟨⟨⟨⟨⟨⟨h1, h1o⟩, h2⟩, h2o⟩, h3⟩, h3o⟩, h4⟩, h4o⟩, h5⟩, h5o⟩,
    h6⟩, h6o⟩ := hp
  simp only [vkCoordsCanon, Bool.and_eq_true] at hc
  obtain ⟨⟨⟨⟨⟨⟨⟨⟨⟨⟨⟨⟨⟨hA1, hA2⟩, hB1⟩, hB2⟩, hB3⟩, hB4⟩, hC1⟩, hC2⟩, hC3⟩,
    hC4⟩, hD1⟩, hD2⟩, hD3⟩, hD4⟩ := hc
  intro q hq
  simp only [stdPairsV2, List.mem_cons, List.not_mem_nil, or_false] at hq
  rcases hq with rfl | rfl | rfl | rfl | rfl | rfl | rfl | rfl | rfl | rfl |
    rfl | rfl | rfl | rfl
  · exact ⟨⟨h1, not_infix_of_occursB h1o⟩, coordLit_allS hA1⟩
  · exact ⟨⟨h5, not_infix_of_occursB h5o⟩, coordLit_allS hA2⟩
  · exact ⟨⟨h2, not_infix_of_occursB h2o⟩, coordLit_allS hB1⟩
  · exact ⟨⟨h5, not_infix_of_occursB h5o⟩, coordLit_allS hB2⟩
  · exact ⟨⟨h6, not_infix_of_occursB h6o⟩, coordLit_allS hB3⟩
  · exact ⟨⟨h5, not_infix_of_occursB h5o⟩, coordLit_allS hB4⟩
  · exact ⟨⟨h3, not_infix_of_occursB h3o⟩, coordLit_allS hC1⟩
  · exact ⟨⟨h5, not_infix_of_occursB h5o⟩, coordLit_allS hC2⟩
  · exact ⟨⟨h6, not_infix_of_occursB h6o⟩, coordLit_allS hC3⟩
  · exact ⟨⟨h5, not_infix_of_occursB h5o⟩, coordLit_allS hC4⟩
  · exact ⟨⟨h4, not_infix_of_occursB h4o⟩, coordLit_allS hD1⟩
  · exact ⟨⟨h5, not_infix_of_occursB h5o⟩, coordLit_allS hD2⟩
  · exact ⟨⟨h6, not_infix_of_occursB h6o⟩, coordLit_allS hD3⟩
  · exact ⟨⟨h5, not_infix_of_occursB h5o⟩, coordLit_allS hD4⟩

theorem stdPairsV2_notin (P : Str) (hp : patNotInStdV2 P = true)
    (vk : VerificationKey) (hc : vkCoordsCanon vk = true) :
    ∀ q ∈ stdPairsV2 vk,
      ¬ P <:+: q.1 ∧ q.2.all isSChar = true ∧ 66 ≤ q.2.length := by
  simp only [patNotInStdV2, Bool.and_eq_true, Bool.not_eq_true'] at hp
  obtain ⟨⟨⟨⟨⟨h1o, h2o⟩, h3o⟩, h4o⟩, h5o⟩, h6o⟩ := hp
  simp only [vkCoordsCanon, Bool.and_eq_true] at hc
  obtain ⟨⟨⟨⟨⟨⟨⟨⟨⟨⟨⟨⟨⟨hA1, hA2⟩, hB1⟩, hB2⟩, hB3⟩, hB4⟩, hC1⟩, hC2⟩, hC3⟩,
    hC4⟩, hD1⟩, hD2⟩, hD3⟩, hD4⟩ := hc
  intro q hq
  simp only [stdPairsV2, List.mem_cons, List.not_mem_nil, or_false] at hq
  rcases hq with rfl | rfl | rfl | rfl | rfl | rfl | rfl | rfl | rfl | rfl |
    rfl | rfl | rfl | rfl
  · exact ⟨not_infix_of_occursB h1o, coordLit_allS hA1, coordLit_len66 hA1⟩
  · exact ⟨not_infix_of_occursB h5o, coordLit_allS hA2, coordLit_len66 hA2⟩
  · exact ⟨not_infix_of_occursB h2o, coordLit_allS hB1, coordLit_len66 hB1⟩
  · exact ⟨not_infix_of_occursB h5o, coordLit_allS hB2, coordLit_len66 hB2⟩
  · exact ⟨not_infix_of_occursB h6o, coordLit_allS hB3, coordLit_len66 hB3⟩
  · exact ⟨not_infix_of_occursB h5o, coordLit_allS hB4, coordLit_len66 hB4⟩
  · exact ⟨not_infix_of_occursB h3o, coordLit_allS hC1, coordLit_len66 hC1⟩
  · exact ⟨not_infix_of_occursB h5o, coordLit_allS hC2, coordLit_len66 hC2⟩
  · exact ⟨not_infix_of_occursB h6o, coordLit_allS hC3, coordLit_len66 hC3⟩
  · exact ⟨not_infix_of_occursB h5o, coordLit_allS hC4, coordLit_len66 hC4⟩
  · exact ⟨not_infix_of_occursB h4o, coordLit_allS hD1, coordLit_len66 hD1⟩
  · exact ⟨not_infix_of_occursB h5o, coordLit_allS hD2, coordLit_len66 hD2⟩
  · exact ⟨not_infix_of_occursB h6o, coordLit_allS hD3, coordLit_len66 hD3⟩
  · exact ⟨not_infix_of_occursB h5o, coordLit_allS hD4, coordLit_len66 hD4⟩

theorem gammaAbcRepeatText_singleton (g : G1Affine) :
    gammaAbcRepeatText [g] =
      stmtHead ++ (g.1 ++ ((", ".data) ++ (g.2 ++ ((");").data)))) := by
  simp [gammaAbcRepeatText, gammaAbcRepeatTextAux, gammaAbcStmt, G1Affine.toText,
    stmtHead, List.append_assoc, show natText 0 = (("0").data) from by decide]

theorem finalPairsV1_cond (P : Str) (hP : patFreeV1 P = true)
    (vk : VerificationKey) (g : G1Affine) (hc : vkCoordsCanon vk = true)
    (hg1 : coordLit g.1 = true) (hg2 : coordLit g.2 = true) :
    ∀ q ∈ finalPairsV1 vk g,
      ¬ P <:+: q.1 ∧ q.2.all isSChar = true ∧ 66 ≤ q.2.length := by
  simp only [patFreeV1, Bool.and_eq_true, Bool.not_eq_true'] at hP
  obtain ⟨⟨⟨⟨⟨⟨⟨o1, o2⟩, o3⟩, o4⟩, o5⟩, o6⟩, o7⟩, _⟩ := hP
  simp only [vkCoordsCanon, Bool.and_eq_true] at hc
  obtain ⟨⟨⟨⟨⟨⟨⟨⟨⟨⟨⟨⟨⟨hA1, hA2⟩, hB1⟩, hB2⟩, hB3⟩, hB4⟩, hC1⟩, hC2⟩, hC3⟩,
    hC4⟩, hD1⟩, hD2⟩, hD3⟩, hD4⟩ := hc
  intro q hq
  simp only [finalPairsV1, List.mem_cons, List.not_mem_nil, or_false] at hq
  rcases hq with rfl | rfl | rfl | rfl | rfl | rfl | rfl | rfl | rfl | rfl |
    rfl | rfl | rfl | rfl | rfl | rfl
  · exact ⟨not_infix_of_occursB o1, coordLit_allS hA1, coordLit_len66 hA1⟩
  · exact ⟨not_infix_of_occursB o2, coordLit_allS hA2, coordLit_len66 hA2⟩
  · exact ⟨not_infix_of_occursB o3, coordLit_allS hB1, coordLit_len66 hB1⟩
  · exact ⟨not_infix_of_occursB o2, coordLit_allS hB2, coordLit_len66 hB2⟩
  · exact ⟨not_infix_of_occursB o4, coordLit_allS hB3, coordLit_len66 hB3⟩
  · exact ⟨not_infix_of_occursB o2, coordLit_allS hB4, coordLit_len66 hB4⟩
  · exact ⟨not_infix_of_occursB o5, coordLit_allS hC1, coordLit_len66 hC1⟩
  · exact ⟨not_infix_of_occursB o2, coordLit_allS hC2, coordLit_len66 hC2⟩
  · exact ⟨not_infix_of_occursB o4, coordLit_allS hC3, coordLit_len66 hC3⟩
  · exact ⟨not_infix_of_occursB o2, coordLit_allS hC4, coordLit_len66 hC4⟩
  · exact ⟨not_infix_of_occursB o6, coordLit_allS hD1, coordLit_len66 hD1⟩
  · exact ⟨not_infix_of_occursB o2, coordLit_allS hD2, coordLit_len66 hD2⟩
  · exact ⟨not_infix_of_occursB o4, coordLit_allS hD3, coordLit_len66 hD3⟩
  · exact ⟨not_infix_of_occursB o2, coordLit_allS hD4, coordLit_len66 hD4⟩
  · exact ⟨not_infix_of_occursB o7, coordLit_allS hg1, coordLit_len66 hg1⟩
  · exact ⟨not_infix_of_occursB o2, coordLit_allS hg2, coordLit_len66 hg2⟩

theorem finalPairsV2_cond (P : Str) (hP : patFreeV2 P = true)
    (vk : VerificationKey) (g : G1Affine) (hc : vkCoordsCanon vk = true)
    (hg1 : coordLit g.1 = true) (hg2 : coordLit g.2 = true) :
    ∀ q ∈ finalPairsV2 vk g,
      ¬ P <:+: q.1 ∧ q.2.all isSChar = true ∧ 66 ≤ q.2.length := by
  simp only [patFreeV2, Bool.and_eq_true, Bool.not_eq_true'] at hP
  obtain ⟨⟨⟨⟨⟨⟨⟨o1, o2⟩, o3⟩, o4⟩, o5⟩, o6⟩, o7⟩, _⟩ := hP
  simp only [vkCoordsCanon, Bool.and_eq_true] at hc
  obtain ⟨⟨⟨⟨⟨⟨⟨⟨⟨⟨⟨⟨⟨hA1, hA2⟩, hB1⟩, hB2⟩, hB3⟩, hB4⟩, hC1⟩, hC2⟩, hC3⟩,
    hC4⟩, hD1⟩, hD2⟩, hD3⟩, hD4⟩ := hc
  intro q hq
  simp only [finalPairsV2, List.mem_cons, List.not_mem_nil, or_false] at hq
  rcases hq with rfl | rfl | rfl | rfl | rfl | rfl | rfl | rfl | rfl | rfl |
    rfl | rfl | rfl | rfl | rfl | rfl
  · exact ⟨not_infix_of_occursB o1, coordLit_allS hA1, coordLit_len66 hA1⟩
  · exact ⟨not_infix_of_occursB o2, coordLit_allS hA2, coordLit_len66 hA2⟩
  · exact ⟨not_infix_of_occursB o3, coordLit_allS hB1, coordLit_len66 hB1⟩
  · exact ⟨not_infix_of_occursB o2, coordLit_allS hB2, coordLit_len66 hB2⟩
  · exact ⟨not_infix_of_occursB o4, coordLit_allS hB3, coordLit_len66 hB3⟩
  · exact ⟨not_infix_of_occursB o2, coordLit_allS hB4, coordLit_len66 hB4⟩
  · exact ⟨not_infix_of_occursB o5, coordLit_allS hC1, coordLit_len66 hC1⟩
  · exact ⟨not_infix_of_occursB o2, coordLit_allS hC2, coordLit_len66 hC2⟩
  · exact ⟨not_infix_of_occursB o4, coordLit_allS hC3, coordLit_len66 hC3⟩
  · exact ⟨not_infix_of_occursB o2, coordLit_allS hC4, coordLit_len66 hC4⟩
  · exact ⟨not_infix_of_occursB o6, coordLit_allS hD1, coordLit_len66 hD1⟩
  · exact ⟨not_infix_of_occursB o2, coordLit_allS hD2, coordLit_len66 hD2⟩
  · exact ⟨not_infix_of_occursB o4, coordLit_allS hD3, coordLit_len66 hD3⟩
  · exact ⟨not_infix_of_occursB o2, coordLit_allS hD4, coordLit_len66 hD4⟩
  · exact ⟨not_infix_of_occursB o7, coordLit_allS hg1, coordLit_len66 hg1⟩
  · exact ⟨not_infix_of_occursB o2, coordLit_allS hg2, coordLit_len66 hg2⟩

theorem export_decomp_V1 (vk : VerificationKey) (g : G1Affine)
    (hg : vk.gamma_abc = [g]) (hvk : vkCoordsCanon vk = true)
    (hg1 : coordLit g.1 = true) (hg2 : coordLit g.2 = true) :
    G16.export_solidity_verifier vk SolidityAbi.V1 =
      JoinPieces (finalPairsV1 vk g) finalTailV1 := by
  have hc := hvk
  simp only [vkCoordsCanon, Bool.and_eq_true] at hc
  obtain ⟨⟨⟨⟨⟨⟨⟨⟨⟨⟨⟨⟨⟨hA1, hA2⟩, hB1⟩, hB2⟩, hB3⟩, hB4⟩, hC1⟩, hC2⟩, hC3⟩,
    hC4⟩, hD1⟩, hD2⟩, hD3⟩, hD4⟩ := hc
  simp only [G16.export_solidity_verifier, templateFor, pairingLibFor,
    substitutePhase]
  rw [hg]
  simp only [List.length_singleton]
  rw [show (1:Nat) - 1 = 0 from rfl]
  simp only [if_neg (show ¬ ((1:Nat) > 1) from by decide)]
  rw [show natText 1 = (("1").data) from by decide,
    show natText 0 = (("0").data) from by decide,
    gammaAbcRepeatText_singleton g,
    vkSubstPhase_decomp_V1 vk (vkNoLt_of_canon hvk), joinStdV1 vk]
  rw [@replaceFirstLit_JoinPieces vkGammaAbcLenPat (by decide) (("1").data)
    (stdPairsV1 vk) _ (stdPairsV1_cond vkGammaAbcLenPat (by decide) vk hvk)]
  simp only [tV1s5]
  rw [@replaceFirstLit_skip_conc vkGammaAbcLenPat (("1").data) ("]".data) (by decide)
      (not_infix_of_occursB (by decide))]
  rw [@replaceFirstLit_skip_conc vkGammaAbcLenPat (("1").data) tV1lenA (by decide)
      (not_infix_of_occursB (by decide))]
  rw [replaceFirstLit_match (show vkGammaAbcLenPat ≠ [] from by decide)
    (("1").data) _]
  rw [@replaceFirstLit_JoinPieces vkInputLenPat (by decide) (("0").data)
    (stdPairsV1 vk) _ (stdPairsV1_cond vkInputLenPat (by decide) vk hvk)]
  rw [@replaceFirstLit_skip_conc vkInputLenPat (("0").data) ("]".data) (by decide)
      (not_infix_of_occursB (by decide))]
  rw [@replaceFirstLit_skip_conc vkInputLenPat (("0").data) tV1lenA (by decide)
      (not_infix_of_occursB (by decide))]
  rw [@replaceFirstLit_skip_conc vkInputLenPat (("0").data) (("1").data) (by decide)
      (not_infix_of_occursB (by decide))]
  rw [@replaceFirstLit_skip_conc vkInputLenPat (("0").data) tV1ptsA (by decide)
      (not_infix_of_occursB (by decide))]
  rw [@replaceFirstLit_skip_conc vkInputLenPat (("0").data) vkGammaAbcPtsPat (by decide)
      (not_infix_of_occursB (by decide))]
  rw [@replaceFirstLit_skip_conc vkInputLenPat (("0").data) tV1argA (by decide)
      (not_infix_of_occursB (by decide))]
  rw [@replaceFirstLit_skip_conc vkInputLenPat (("0").data) inputArgumentPat (by decide)
      (not_infix_of_occursB (by decide))]
  rw [@replaceFirstLit_skip_conc vkInputLenPat (("0").data) tV1ilA (by decide)
      (not_infix_of_occursB (by decide))]
  rw [replaceFirstLit_match (show vkInputLenPat ≠ [] from by decide)
    (("0").data) _]
  rw [@replaceFirstLit_JoinPieces inputLoopPat (by decide) ([])
    (stdPairsV1 vk) _ (stdPairsV1_cond inputLoopPat (by decide) vk hvk)]
  rw [@replaceFirstLit_skip_conc inputLoopPat ([]) ("]".data) (by decide)
      (not_infix_of_occursB (by decide))]
  rw [@replaceFirstLit_skip_conc inputLoopPat ([]) tV1lenA (by decide)
      (not_infix_of_occursB (by decide))]
  rw [@replaceFirstLit_skip_conc inputLoopPat ([]) (("1").data) (by decide)
      (not_infix_of_occursB (by decide))]
  rw [@replaceFirstLit_skip_conc inputLoopPat ([]) tV1ptsA (by decide)
      (not_infix_of_occursB (by decide))]
  rw [@replaceFirstLit_skip_conc inputLoopPat ([]) vkGammaAbcPtsPat (by decide)
      (not_infix_of_occursB (by decide))]
  rw [@replaceFirstLit_skip_conc inputLoopPat ([]) tV1argA (by decide)
      (not_infix_of_occursB (by decide))]
  rw [@replaceFirstLit_skip_conc inputLoopPat ([]) inputArgumentPat (by decide)
      (not_infix_of_occursB (by decide))]
  rw [@replaceFirstLit_skip_conc inputLoopPat ([]) tV1ilA (by decide)
      (not_infix_of_occursB (by decide))]
  rw [@replaceFirstLit_skip_conc inputLoopPat ([]) (("0").data) (by decide)
      (not_infix_of_occursB (by decide))]
  rw [@replaceFirstLit_skip_conc inputLoopPat ([]) tV1loopA (by decide)
      (not_infix_of_occursB (by decide))]
  rw [replaceFirstLit_match (show inputLoopPat ≠ [] from by decide) ([]) _]
  simp only [List.nil_append]
  rw [@replaceFirstLit_JoinPieces inputArgumentPat (by decide) ([])
    (stdPairsV1 vk) _ (stdPairsV1_cond inputArgumentPat (by decide) vk hvk)]
  rw [@replaceFirstLit_skip_conc inputArgumentPat ([]) ("]".data) (by decide)
      (not_infix_of_occursB (by decide))]
  rw [@replaceFirstLit_skip_conc inputArgumentPat ([]) tV1lenA (by decide)
      (not_infix_of_occursB (by decide))]
  rw [@replaceFirstLit_skip_conc inputArgumentPat ([]) (("1").data) (by decide)
      (not_infix_of_occursB (by decide))]
  rw [@replaceFirstLit_skip_conc inputArgumentPat ([]) tV1ptsA (by decide)
      (not_infix_of_occursB (by decide))]
  rw [@replaceFirstLit_skip_conc inputArgumentPat ([]) vkGammaAbcPtsPat (by decide)
      (not_infix_of_occursB (by decide))]
  rw [@replaceFirstLit_skip_conc inputArgumentPat ([]) tV1argA (by decide)
      (not_infix_of_occursB (by decide))]
  rw [replaceFirstLit_match (show inputArgumentPat ≠ [] from by decide) ([]) _]
  simp only [List.nil_append]
  rw [@replaceFirstLit_JoinPieces vkGammaAbcPtsPat (by decide) (stmtHead ++ (g.1 ++ ((", ".data) ++ (g.2 ++ ((");").data)))))
    (stdPairsV1 vk) _ (stdPairsV1_cond vkGammaAbcPtsPat (by decide) vk hvk)]
  rw [@replaceFirstLit_skip_conc vkGammaAbcPtsPat (stmtHead ++ (g.1 ++ ((", ".data) ++ (g.2 ++ ((");").data))))) ("]".data) (by decide)
      (not_infix_of_occursB (by decide))]
  rw [@replaceFirstLit_skip_conc vkGammaAbcPtsPat (stmtHead ++ (g.1 ++ ((", ".data) ++ (g.2 ++ ((");").data))))) tV1lenA (by decide)
      (not_infix_of_occursB (by decide))]
  rw [@replaceFirstLit_skip_conc vkGammaAbcPtsPat (stmtHead ++ (g.1 ++ ((", ".data) ++ (g.2 ++ ((");").data))))) (("1").data) (by decide)
      (not_infix_of_occursB (by decide))]
  rw [@replaceFirstLit_skip_conc vkGammaAbcPtsPat (stmtHead ++ (g.1 ++ ((", ".data) ++ (g.2 ++ ((");").data))))) tV1ptsA (by decide)
      (not_infix_of_occursB (by decide))]
  rw [replaceFirstLit_match (show vkGammaAbcPtsPat ≠ [] from by decide)
    (stmtHead ++ (g.1 ++ ((", ".data) ++ (g.2 ++ ((");").data))))) _]
  simp only [stdPairsV1, JoinPieces, List.append_assoc, List.nil_append]
  rw [replaceAll64_skip tV1s1 (by decide)]
  rw [replaceAll64_match hA1]
  rw [replaceAll64_skip (", ".data) (by decide)]
  rw [replaceAll64_match hA2]
  rw [replaceAll64_skip tV1s2 (by decide)]
  rw [replaceAll64_skip ("[".data) (by decide)]
  rw [replaceAll64_match hB1]
  rw [replaceAll64_skip (", ".data) (by decide)]
  rw [replaceAll64_match hB2]
  rw [replaceAll64_skip ("], [".data) (by decide)]
  rw [replaceAll64_match hB3]
  rw [replaceAll64_skip (", ".data) (by decide)]
  rw [replaceAll64_match hB4]
  rw [replaceAll64_skip ("]".data) (by decide)]
  rw [replaceAll64_skip tV1s3 (by decide)]
  rw [replaceAll64_skip ("[".data) (by decide)]
  rw [replaceAll64_match hC1]
  rw [replaceAll64_skip (", ".data) (by decide)]
  rw [replaceAll64_match hC2]
  rw [replaceAll64_skip ("], [".data) (by decide)]
  rw [replaceAll64_match hC3]
  rw [replaceAll64_skip (", ".data) (by decide)]
  rw [replaceAll64_match hC4]
  rw [replaceAll64_skip ("]".data) (by decide)]
  rw [replaceAll64_skip tV1s4 (by decide)]
  rw [replaceAll64_skip ("[".data) (by decide)]
  rw [replaceAll64_match hD1]
  rw [replaceAll64_skip (", ".data) (by decide)]
  rw [replaceAll64_match hD2]
  rw [replaceAll64_skip ("], [".data) (by decide)]
  rw [replaceAll64_match hD3]
  rw [replaceAll64_skip (", ".data) (by decide)]
  rw [replaceAll64_match hD4]
  rw [replaceAll64_skip ("]".data) (by decide)]
  rw [replaceAll64_skip tV1lenA (by decide)]
  rw [replaceAll64_skip (("1").data) (by decide)]
  rw [replaceAll64_skip tV1ptsA (by decide)]
  rw [replaceAll64_skip stmtHead (by decide)]
  rw [replaceAll64_match hg1]
  rw [replaceAll64_skip (", ".data) (by decide)]
  rw [replaceAll64_match hg2]
  rw [replaceAll64_skip ((");").data) (by decide)]
  rw [replaceAll64_skip tV1argA (by decide)]
  rw [replaceAll64_skip tV1ilA (by decide)]
  rw [← List.append_assoc (("0").data) tV1loopA tV1loopB]
  rw [replaceAll64_skip ((("0").data) ++ tV1loopA) (by decide)]
  rw [@replaceAll64_id tV1loopB (by decide)]
  simp only [finalPairsV1, finalTailV1, JoinPieces, uintOpen, parenT,
    List.append_assoc]

theorem export_decomp_V2 (vk : VerificationKey) (g : G1Affine)
    (hg : vk.gamma_abc = [g]) (hvk : vkCoordsCanon vk = true)
    (hg1 : coordLit g.1 = true) (hg2 : coordLit g.2 = true) :
    G16.export_solidity_verifier vk SolidityAbi.V2 =
      JoinPieces (finalPairsV2 vk g) finalTailV2 := by
  have hc := hvk
  simp only [vkCoordsCanon, Bool.and_eq_true] at hc
  obtain ⟨⟨⟨⟨⟨⟨⟨⟨⟨⟨⟨⟨⟨hA1, hA2⟩, hB1⟩, hB2⟩, hB3⟩, hB4⟩, hC1⟩, hC2⟩, hC3⟩,
    hC4⟩, hD1⟩, hD2⟩, hD3⟩, hD4⟩ := hc
  simp only [G16.export_solidity_verifier, templateFor, pairingLibFor,
    substitutePhase]
  rw [hg]
  simp only [List.length_singleton]
  rw [show (1:Nat) - 1 = 0 from rfl]
  simp only [if_neg (show ¬ ((1:Nat) > 1) from by decide)]
  rw [show natText 1 = (("1").data) from by decide,
    show natText 0 = (("0").data) from by decide,
    gammaAbcRepeatText_singleton g,
    vkSubstPhase_decomp_V2 vk (vkNoLt_of_canon hvk), joinStdV2 vk]
  rw [@replaceFirstLit_JoinPieces vkGammaAbcLenPat (by decide) (("1").data)
    (stdPairsV2 vk) _ (stdPairsV2_cond vkGammaAbcLenPat (by decide) vk hvk)]
  simp only [tV2s5]
  rw [@replaceFirstLit_skip_conc vkGammaAbcLenPat (("1").data) ("]".data) (by decide)
      (not_infix_of_occursB (by decide))]
  rw [@replaceFirstLit_skip_conc vkGammaAbcLenPat (("1").data) tV2lenA (by decide)
      (not_infix_of_occursB (by decide))]
  rw [replaceFirstLit_match (show vkGammaAbcLenPat ≠ [] from by decide)
    (("1").data) _]
  rw [replaceFirstLit_none (("0").data)
    (@not_infix_JoinPieces vkInputLenPat (by decide) (stdPairsV2 vk)
      (("]".data) ++ (tV2lenA ++ ((("1").data) ++ (tV2ptsA ++ (vkGammaAbcPtsPat ++
        (tV2argA ++ (inputArgumentPat ++ (tV2loopA ++ (inputLoopPat ++
          tV2loopB)))))))))
      (stdPairsV2_notin vkInputLenPat (by decide) vk hvk)
      (not_infix_of_occursB (by decide)))]
  rw [@replaceFirstLit_JoinPieces inputLoopPat (by decide) ([])
    (stdPairsV2 vk) _ (stdPairsV2_cond inputLoopPat (by decide) vk hvk)]
  rw [@replaceFirstLit_skip_conc inputLoopPat ([]) ("]".data) (by decide)
      (not_infix_of_occursB (by decide))]
  rw [@replaceFirstLit_skip_conc inputLoopPat ([]) tV2lenA (by decide)
      (not_infix_of_occursB (by decide))]
  rw [@replaceFirstLit_skip_conc inputLoopPat ([]) (("1").data) (by decide)
      (not_infix_of_occursB (by decide))]
  rw [@replaceFirstLit_skip_conc inputLoopPat ([]) tV2ptsA (by decide)
      (not_infix_of_occursB (by decide))]
  rw [@replaceFirstLit_skip_conc inputLoopPat ([]) vkGammaAbcPtsPat (by decide)
      (not_infix_of_occursB (by decide))]
  rw [@replaceFirstLit_skip_conc inputLoopPat ([]) tV2argA (by decide)
      (not_infix_of_occursB (by decide))]
  rw [@replaceFirstLit_skip_conc inputLoopPat ([]) inputArgumentPat (by decide)
      (not_infix_of_occursB (by decide))]
  rw [@replaceFirstLit_skip_conc inputLoopPat ([]) tV2loopA (by decide)
      (not_infix_of_occursB (by decide))]
  rw [replaceFirstLit_match (show inputLoopPat ≠ [] from by decide) ([]) _]
  simp only [List.nil_append]
  rw [@replaceFirstLit_JoinPieces inputArgumentPat (by decide) ([])
    (stdPairsV2 vk) _ (stdPairsV2_cond inputArgumentPat (by decide) vk hvk)]
  rw [@replaceFirstLit_skip_conc inputArgumentPat ([]) ("]".data) (by decide)
      (not_infix_of_occursB (by decide))]
  rw [@replaceFirstLit_skip_conc inputArgumentPat ([]) tV2lenA (by decide)
      (not_infix_of_occursB (by decide))]
  rw [@replaceFirstLit_skip_conc inputArgumentPat ([]) (("1").data) (by decide)
      (not_infix_of_occursB (by decide))]
  rw [@replaceFirstLit_skip_conc inputArgumentPat ([]) tV2ptsA (by decide)
      (not_infix_of_occursB (by decide))]
  rw [@replaceFirstLit_skip_conc inputArgumentPat ([]) vkGammaAbcPtsPat (by decide)
      (not_infix_of_occursB (by decide))]
  rw [@replaceFirstLit_skip_conc inputArgumentPat ([]) tV2argA (by decide)
      (not_infix_of_occursB (by decide))]
  rw [replaceFirstLit_match (show inputArgumentPat ≠ [] from by decide) ([]) _]
  simp only [List.nil_append]
  rw [@replaceFirstLit_JoinPieces vkGammaAbcPtsPat (by decide) (stmtHead ++ (g.1 ++ ((", ".data) ++ (g.2 ++ ((");").data)))))
    (stdPairsV2 vk) _ (stdPairsV2_cond vkGammaAbcPtsPat (by decide) vk hvk)]
  rw [@replaceFirstLit_skip_conc vkGammaAbcPtsPat (stmtHead ++ (g.1 ++ ((", ".data) ++ (g.2 ++ ((");").data))))) ("]".data) (by decide)
      (not_infix_of_occursB (by decide))]
  rw [@replaceFirstLit_skip_conc vkGammaAbcPtsPat (stmtHead ++ (g.1 ++ ((", ".data) ++ (g.2 ++ ((");").data))))) tV2lenA (by decide)
      (not_infix_of_occursB (by decide))]
  rw [@replaceFirstLit_skip_conc vkGammaAbcPtsPat (stmtHead ++ (g.1 ++ ((", ".data) ++ (g.2 ++ ((");").data))))) (("1").data) (by decide)
      (not_infix_of_occursB (by decide))]
  rw [@replaceFirstLit_skip_conc vkGammaAbcPtsPat (stmtHead ++ (g.1 ++ ((", ".data) ++ (g.2 ++ ((");").data))))) tV2ptsA (by decide)
      (not_infix_of_occursB (by decide))]
  rw [replaceFirstLit_match (show vkGammaAbcPtsPat ≠ [] from by decide)
    (stmtHead ++ (g.1 ++ ((", ".data) ++ (g.2 ++ ((");").data))))) _]
  simp only [stdPairsV2, JoinPieces, List.append_assoc, List.nil_append]
  rw [replaceAll64_skip tV2s1 (by decide)]
  rw [replaceAll64_match hA1]
  rw [replaceAll64_skip (", ".data) (by decide)]
  rw [replaceAll64_match hA2]
  rw [replaceAll64_skip tV2s2 (by decide)]
  rw [replaceAll64_skip ("[".data) (by decide)]
  rw [replaceAll64_match hB1]
  rw [replaceAll64_skip (", ".data) (by decide)]
  rw [replaceAll64_match hB2]
  rw [replaceAll64_skip ("], [".data) (by decide)]
  rw [replaceAll64_match hB3]
  rw [replaceAll64_skip (", ".data) (by decide)]
  rw [replaceAll64_match hB4]
  rw [replaceAll64_skip ("]".data) (by decide)]
  rw [replaceAll64_skip tV2s3 (by decide)]
  rw [replaceAll64_skip ("[".data) (by decide)]
  rw [replaceAll64_match hC1]
  rw [replaceAll64_skip (", ".data) (by decide)]
  rw [replaceAll64_match hC2]
  rw [replaceAll64_skip ("], [".data) (by decide)]
  rw [replaceAll64_match hC3]
  rw [replaceAll64_skip (", ".data) (by decide)]
  rw [replaceAll64_match hC4]
  rw [replaceAll64_skip ("]".data) (by decide)]
  rw [replaceAll64_skip tV2s4 (by decide)]
  rw [replaceAll64_skip ("[".data) (by decide)]
  rw [replaceAll64_match hD1]
  rw [replaceAll64_skip (", ".data) (by decide)]
  rw [replaceAll64_match hD2]
  rw [replaceAll64_skip ("], [".data) (by decide)]
  rw [replaceAll64_match hD3]
  rw [replaceAll64_skip (", ".data) (by decide)]
  rw [replaceAll64_match hD4]
  rw [replaceAll64_skip ("]".data) (by decide)]
  rw [replaceAll64_skip tV2lenA (by decide)]
  rw [replaceAll64_skip (("1").data) (by decide)]
  rw [replaceAll64_skip tV2ptsA (by decide)]
  rw [replaceAll64_skip stmtHead (by decide)]
  rw [replaceAll64_match hg1]
  rw [replaceAll64_skip (", ".data) (by decide)]
  rw [replaceAll64_match hg2]
  rw [replaceAll64_skip ((");").data) (by decide)]
  rw [replaceAll64_skip tV2argA (by decide)]
  rw [replaceAll64_skip tV2loopA (by decide)]
  rw [@replaceAll64_id tV2loopB (by decide)]
  simp only [finalPairsV2, finalTailV2, JoinPieces, uintOpen, parenT,
    List.append_assoc]

/-- **C6.** For every verification key whose `gamma_abc` has exactly one
entry (zero public inputs) with canonical 66-character hex coordinates,
and either ABI selector, the generated contract is clean: no placeholder
opener `<%` survives anywhere in the output (so no `<%…%>` placeholder
text remains), the input-copy loop text does not occur, and the entry
point's parameter list closes directly after the fixed proof arguments
(the zero-input signature text occurs in the output). -/
theorem export_zero_public_inputs_clean (vk : VerificationKey) (g : G1Affine)
    (hg : vk.gamma_abc = [g]) (hvk : vkCoordsCanon vk = true)
    (hg1 : coordLit g.1 = true) (hg2 : coordLit g.2 = true)
    (abi : SolidityAbi) :
    ¬ placeholderOpen <:+: G16.export_solidity_verifier vk abi ∧
    ¬ inputLoopText <:+: G16.export_solidity_verifier vk abi ∧
    entrySigFor abi <:+: G16.export_solidity_verifier vk abi := by
  cases abi with
  | V1 =>
    rw [export_decomp_V1 vk g hg hvk hg1 hg2]
    simp only [entrySigFor]
    refine ⟨?_, ?_, ?_⟩
    · exact @not_infix_JoinPieces placeholderOpen (by decide) (finalPairsV1 vk g)
        finalTailV1 (finalPairsV1_cond placeholderOpen (by decide) vk g hvk hg1 hg2)
        (not_infix_of_occursB (by decide))
    · intro hLoop
      have hM : loopMarker <:+: inputLoopText := infix_of_occursB (by decide)
      exact (@not_infix_JoinPieces loopMarker (by decide) (finalPairsV1 vk g)
        finalTailV1 (finalPairsV1_cond loopMarker (by decide) vk g hvk hg1 hg2)
        (not_infix_of_occursB (by decide))) (hM.trans hLoop)
    · exact infix_JoinPieces_tail (finalPairsV1 vk g) (infix_of_occursB (by decide))
  | V2 =>
    rw [export_decomp_V2 vk g hg hvk hg1 hg2]
    simp only [entrySigFor]
    refine ⟨?_, ?_, ?_⟩
    · exact @not_infix_JoinPieces placeholderOpen (by decide) (finalPairsV2 vk g)
        finalTailV2 (finalPairsV2_cond placeholderOpen (by decide) vk g hvk hg1 hg2)
        (not_infix_of_occursB (by decide))
    · intro hLoop
      have hM : loopMarker <:+: inputLoopText := infix_of_occursB (by decide)
      exact (@not_infix_JoinPieces loopMarker (by decide) (finalPairsV2 vk g)
        finalTailV2 (finalPairsV2_cond loopMarker (by decide) vk g hvk hg1 hg2)
        (not_infix_of_occursB (by decide))) (hM.trans hLoop)
    · exact infix_JoinPieces_tail (finalPairsV2 vk g) (infix_of_occursB (by decide))

/-- Witness for C6: the canonical one-entry key, both dialects. -/
theorem export_zero_public_inputs_clean_witness :
    (¬ placeholderOpen <:+: G16.export_solidity_verifier canonVk SolidityAbi.V1 ∧
     ¬ inputLoopText <:+: G16.export_solidity_verifier canonVk SolidityAbi.V1 ∧
     entrySigFor SolidityAbi.V1 <:+:
       G16.export_solidity_verifier canonVk SolidityAbi.V1) ∧
    (¬ placeholderOpen <:+: G16.export_solidity_verifier canonVk SolidityAbi.V2 ∧
     ¬ inputLoopText <:+: G16.export_solidity_verifier canonVk SolidityAbi.V2 ∧
     entrySigFor SolidityAbi.V2 <:+:
       G16.export_solidity_verifier canonVk SolidityAbi.V2) :=
  ⟨export_zero_public_inputs_clean canonVk (canonCoord, canonCoord) rfl
      (by decide) (by decide) (by decide) SolidityAbi.V1,
   export_zero_public_inputs_clean canonVk (canonCoord, canonCoord) rfl
      (by decide) (by decide) (by decide) SolidityAbi.V2⟩
